import Mathlib

/-!
Verification of the browserve action/event/logging core.

This file gives a shallow embedding, in Lean 4, of the parts of the
browserve source that the specification claims talk about:

* `src/browserve/models/results.py` — `ActionResult`, `ActionStatus`,
  `ActionMetrics` (record_result / success_rate / reset);
* `src/browserve/events/handlers.py` — `EventEmitter.emit` with
  per-handler error isolation;
* `src/browserve/actions/base.py` — `PlaywrightAction.execute_with_hooks`
  (retry loop, exponential backoff, timeout handling, pre/post hooks)
  and `ComposedAction.execute`;
* `src/browserve/core/logger.py` — `BrowserLogger._handle_event`
  (filter chain in front of the buffer);
* `src/browserve/utils/validation.py` — `validate_css_selector` and
  `validate_xpath_selector`.

Python dictionaries are embedded as association lists in insertion
order, Python floats as rationals (all float arithmetic performed by the
embedded code is exact on dyadic values), and `await`-able side effects
(sleeps, the wall clock) as an explicit trace and an explicit clock.
Handler and action bodies are embedded as outcome-valued functions, so
that raising, failing and succeeding code can all be represented.
-/

namespace Browserve

/-- Values stored in Python dicts (`data` / `metadata` of `ActionResult`). -/
inductive MValue : Type where
  | vnat (n : Nat)
  | vrat (q : ℚ)
  | vstr (s : String)
  | vbool (b : Bool)
  | vnone
  | vlist (l : List MValue)
  | vdict (d : List (String × MValue))

/-- Python dict lookup on an association list. -/
def dictGet (d : List (String × MValue)) (k : String) : Option MValue :=
  match d.find? (fun p => p.1 = k) with
  | some p => some p.2
  | none => none

/-- Python dict assignment: replace in place if the key exists, else append. -/
def dictSet (d : List (String × MValue)) (k : String) (v : MValue) :
    List (String × MValue) :=
  if d.any (fun p => p.1 = k) then
    d.map (fun p => if p.1 = k then (k, v) else p)
  else
    d ++ [(k, v)]

/-- Python `dict.update` over a list of key/value pairs in order. -/
def dictUpdate (d : List (String × MValue)) (kvs : List (String × MValue)) :
    List (String × MValue) :=
  kvs.foldl (fun acc kv => dictSet acc kv.1 kv.2) d

/-- The `ActionStatus` enumeration of `models/results.py`. -/
inductive MStatus : Type where
  | success
  | failure
  | timeout
  | retry
  | skipped
deriving DecidableEq

/-- The `ActionResult` model of `models/results.py`. -/
structure MActionResult : Type where
  success : Bool
  status : MStatus
  data : Option (List (String × MValue))
  error : Option String
  metadata : List (String × MValue)
  execution_time : Option ℚ
  retry_count : Nat
  action_type : Option String

/-- Factory `ActionResult.success_result` (`data or empty-dict` semantics:
both `None` and the empty dict give the empty dict). -/
def successResult (data : Option (List (String × MValue)))
    (action_type : Option String) (metadata : List (String × MValue)) :
    MActionResult :=
  { success := true
    status := MStatus.success
    data := some (data.getD [])
    error := none
    metadata := metadata
    execution_time := none
    retry_count := 0
    action_type := action_type }

/-- Factory `ActionResult.failure_result`. -/
def failureResult (error : String) (action_type : Option String)
    (metadata : List (String × MValue) := []) : MActionResult :=
  { success := false
    status := MStatus.failure
    data := none
    error := some error
    metadata := metadata
    execution_time := none
    retry_count := 0
    action_type := action_type }

/-- Rendering of an embedded float in an f-string. -/
def ratRender (q : ℚ) : String := toString q

/-- Error message of `ActionResult.timeout_result`. -/
def timeoutMsg (t : ℚ) : String :=
  "Action timed out after " ++ ratRender t ++ "s"

/-- Factory `ActionResult.timeout_result`. -/
def timeoutResult (timeout_duration : ℚ) (action_type : Option String) :
    MActionResult :=
  { success := false
    status := MStatus.timeout
    data := none
    error := some (timeoutMsg timeout_duration)
    metadata := [("timeout_duration", MValue.vrat timeout_duration)]
    execution_time := none
    retry_count := 0
    action_type := action_type }

/-- Method `ActionResult.add_metadata` (a dict update returning self). -/
def addMetadata (r : MActionResult) (kvs : List (String × MValue)) :
    MActionResult :=
  { r with metadata := dictUpdate r.metadata kvs }

/-! ## ActionMetrics (`models/results.py`) -/

/-- The `ActionMetrics` aggregate of `models/results.py`. -/
structure MActionMetrics : Type where
  total_actions : Nat
  successful_actions : Nat
  failed_actions : Nat
  timeout_actions : Nat
  total_execution_time : ℚ
  total_retries : Nat

/-- The all-zero initial state of `ActionMetrics` (its field defaults). -/
def initialMetrics : MActionMetrics :=
  { total_actions := 0, successful_actions := 0, failed_actions := 0
    timeout_actions := 0, total_execution_time := 0, total_retries := 0 }

/-- Method `ActionMetrics.record_result`.  The Python guard
`if result.execution_time:` is truthiness: both `None` and `0.0` skip the
time accumulation. -/
def record_result (m : MActionMetrics) (r : MActionResult) : MActionMetrics :=
  let m1 := { m with total_actions := m.total_actions + 1 }
  let m2 :=
    if r.success then
      { m1 with successful_actions := m1.successful_actions + 1 }
    else if r.status = MStatus.timeout then
      { m1 with timeout_actions := m1.timeout_actions + 1 }
    else
      { m1 with failed_actions := m1.failed_actions + 1 }
  let m3 :=
    match r.execution_time with
    | some t =>
        if t = 0 then m2
        else { m2 with total_execution_time := m2.total_execution_time + t }
    | none => m2
  { m3 with total_retries := m3.total_retries + r.retry_count }

/-- Property `ActionMetrics.success_rate`. -/
def success_rate (m : MActionMetrics) : ℚ :=
  if m.total_actions = 0 then 0
  else ((m.successful_actions : ℚ) / (m.total_actions : ℚ)) * 100

/-- Method `ActionMetrics.reset`. -/
def resetMetrics (_ : MActionMetrics) : MActionMetrics := initialMetrics

/-! ## EventEmitter (`events/handlers.py`) -/

/-- An event, as far as the emitter dispatch is concerned: its
discriminant string.  Handlers receive the whole event. -/
structure MEvent : Type where
  event_type : String

/-- Outcome of awaiting one handler on one event: it either returns
normally or raises an exception (carrying the exception class name and
message, as collected by `emit`). -/
inductive HOutcome : Type where
  | ok
  | failed (errType : String) (errMsg : String)
deriving DecidableEq

/-- A handler is embedded by what it does on each event. -/
abbrev MHandler : Type := MEvent → HOutcome

/-- Entry of the `errors` list in the summary returned by `emit`. -/
structure ErrEntry : Type where
  handler_index : Nat
  error_type : String
  error_message : String
deriving DecidableEq

/-- The summary dict returned by `EventEmitter.emit`. -/
structure EmitSummary : Type where
  event_type : String
  handlers_called : Nat
  handlers_succeeded : Nat
  handlers_failed : Nat
  errors : List ErrEntry
deriving DecidableEq

/-- Lookup `self._handlers.get(event.event_type, [])` on the registry. -/
def lookupHandlers (reg : List (String × List MHandler)) (t : String) :
    List MHandler :=
  match reg.find? (fun p => p.1 = t) with
  | some p => p.2
  | none => []

/-- The result-analysis loop of `emit` (`for i, result in enumerate`):
counts successes and failures and builds one error entry per failed
handler, carrying its index. -/
def analyzeFrom (i : Nat) : List HOutcome → Nat × Nat × List ErrEntry
  | [] => (0, 0, [])
  | HOutcome.ok :: rest =>
      let a := analyzeFrom (i + 1) rest
      (a.1 + 1, a.2.1, a.2.2)
  | HOutcome.failed ty msg :: rest =>
      let a := analyzeFrom (i + 1) rest
      (a.1, a.2.1 + 1, ⟨i, ty, msg⟩ :: a.2.2)

/-- Method `EventEmitter.emit`.  `_safe_handler_call` re-raises handler
exceptions so that `asyncio.gather(..., return_exceptions=True)` collects
them; the model applies every registered handler and collects every
outcome, so no handler outcome can abort the emission — the function is
total, mirroring the fact that `emit` itself never raises. -/
def emit (reg : List (String × List MHandler)) (ev : MEvent) : EmitSummary :=
  let handlers := lookupHandlers reg ev.event_type
  if handlers.isEmpty then
    { event_type := ev.event_type, handlers_called := 0
      handlers_succeeded := 0, handlers_failed := 0, errors := [] }
  else
    let results := handlers.map (fun h => h ev)
    let a := analyzeFrom 0 results
    { event_type := ev.event_type
      handlers_called := handlers.length
      handlers_succeeded := a.1
      handlers_failed := a.2.1
      errors := a.2.2 }

/-! ## PlaywrightAction.execute_with_hooks (`actions/base.py`) -/

/-- Configuration fields of a `PlaywrightAction` that its execution
lifecycle reads, together with the `page.is_active` flag checked by
`pre_execute`. -/
structure ActionCfg : Type where
  action_type : String
  timeout : ℚ
  retry_count : Nat
  wait_before : ℚ
  wait_after : ℚ
  validate_before : Bool
  page_active : Bool
deriving DecidableEq

/-- Outcome of one `await asyncio.wait_for(self.execute(page), timeout)`:
the body returns a result after `dur` seconds, or the timeout fires
(`asyncio.TimeoutError` after `timeout` seconds), or the body raises
after `dur` seconds. -/
inductive ExecOutcome : Type where
  | res (r : MActionResult) (dur : ℚ)
  | timeoutHit
  | raised (msg : String) (dur : ℚ)

/-- One sleep performed during the lifecycle: the `wait_before` sleep of
`pre_execute`, the `wait_after` sleep of `post_execute`, or a retry
backoff sleep. -/
inductive SleepEv : Type where
  | beforeSleep (q : ℚ)
  | afterSleep (q : ℚ)
  | backoff (q : ℚ)
deriving DecidableEq

/-- What a full call of `execute_with_hooks` did: the result it returned,
how many attempts it performed, every sleep in order, and the total
model time elapsed. -/
structure RunOutput : Type where
  result : MActionResult
  attempts : Nat
  sleeps : List SleepEv
  total_time : ℚ

/-- Method `PlaywrightAction._calculate_retry_delay`:
`min(0.5 * (2 ** attempt), 8.0)` (exact dyadic float arithmetic). -/
def calculate_retry_delay (attempt : Nat) : ℚ :=
  min ((1 / 2) * 2 ^ attempt) 8

/-- String form of the `ActionExecutionError` raised by `pre_execute`
when the page is inactive (`BrowserveException.__str__` prepends the
error code in brackets). -/
def pageInactiveMsg : String :=
  "[SESSION_NOT_ACTIVE] Page is not active - cannot execute action"

/-- Terminal error message of the retries-exhausted path of
`execute_with_hooks` (the `break` path, reached when the final attempt
raised). -/
def attemptsFailMsg (n : Nat) (lastErr : String) : String :=
  "Action failed after " ++ toString n ++ " attempts: " ++ lastErr

/-- The synthesized terminal failure result built after `break`:
`failure_result(...).add_timing(...).add_metadata(retry_count=...)`
(timing is stamped by the caller of this helper). -/
def synthFail (cfg : ActionCfg) (msg : String) : MActionResult :=
  addMetadata
    (failureResult (attemptsFailMsg (cfg.retry_count + 1) msg)
      (some cfg.action_type))
    [("retry_count", MValue.vnat cfg.retry_count)]

/-- Result stamping done after `execute` returns: fill in a missing
`action_type`, set `execution_time` to the clock value, set
`retry_count` to the attempt index. -/
def stampResult (cfg : ActionCfg) (r : MActionResult) (attempt : Nat)
    (t : ℚ) : MActionResult :=
  { r with
    action_type := match r.action_type with
      | none => some cfg.action_type
      | some a => some a
    execution_time := some t
    retry_count := attempt }

/-- Sleeps performed by `pre_execute` on one attempt (only reached when
`validate_before` is set; the sleep itself is guarded by
`wait_before > 0`). -/
def preSleepList (cfg : ActionCfg) : List SleepEv :=
  if cfg.validate_before && decide (cfg.wait_before > 0) then
    [SleepEv.beforeSleep cfg.wait_before]
  else []

/-- Time spent in `pre_execute` on one attempt. -/
def preTime (cfg : ActionCfg) : ℚ :=
  if cfg.validate_before && decide (cfg.wait_before > 0) then
    cfg.wait_before
  else 0

/-- Sleeps performed by `post_execute` (unconditionally called on every
attempt whose `execute` returned a result). -/
def postSleepList (cfg : ActionCfg) : List SleepEv :=
  if decide (cfg.wait_after > 0) then [SleepEv.afterSleep cfg.wait_after]
  else []

/-- Time spent in `post_execute`. -/
def postTime (cfg : ActionCfg) : ℚ :=
  if decide (cfg.wait_after > 0) then cfg.wait_after else 0

/-- The attempt loop of `execute_with_hooks`, by recursion on the number
of retries still available (`remaining`); `attempt` is the 0-based index
of the current attempt, `now` the clock since the overall call began,
and `sleeps` the sleeps accumulated so far.  Every branch mirrors the
corresponding branch of the Python loop body. -/
def ewhAux (cfg : ActionCfg) (beh : Nat → ExecOutcome) :
    Nat → Nat → ℚ → List SleepEv → RunOutput
  | 0, attempt, now, sleeps =>
      if cfg.validate_before && !cfg.page_active then
        ⟨{ synthFail cfg pageInactiveMsg with execution_time := some now },
          attempt + 1, sleeps, now⟩
      else
        let pre := preSleepList cfg
        let now1 := now + preTime cfg
        match beh attempt with
        | ExecOutcome.res r dur =>
            let now2 := now1 + dur
            let r1 := stampResult cfg r attempt now2
            let post := postSleepList cfg
            let now3 := now2 + postTime cfg
            if r1.success then
              ⟨r1, attempt + 1, sleeps ++ pre ++ post, now3⟩
            else
              ⟨{ r1 with execution_time := some now3 }, attempt + 1,
                sleeps ++ pre ++ post, now3⟩
        | ExecOutcome.timeoutHit =>
            let now2 := now1 + cfg.timeout
            ⟨{ timeoutResult cfg.timeout (some cfg.action_type) with
                execution_time := some now2 },
              attempt + 1, sleeps ++ pre, now2⟩
        | ExecOutcome.raised msg dur =>
            let now2 := now1 + dur
            ⟨{ synthFail cfg msg with execution_time := some now2 },
              attempt + 1, sleeps ++ pre, now2⟩
  | remaining + 1, attempt, now, sleeps =>
      if cfg.validate_before && !cfg.page_active then
        ewhAux cfg beh remaining (attempt + 1)
          (now + calculate_retry_delay attempt)
          (sleeps ++ [SleepEv.backoff (calculate_retry_delay attempt)])
      else
        let pre := preSleepList cfg
        let now1 := now + preTime cfg
        match beh attempt with
        | ExecOutcome.res r dur =>
            let now2 := now1 + dur
            let r1 := stampResult cfg r attempt now2
            let post := postSleepList cfg
            let now3 := now2 + postTime cfg
            if r1.success then
              ⟨r1, attempt + 1, sleeps ++ pre ++ post, now3⟩
            else
              ewhAux cfg beh remaining (attempt + 1)
                (now3 + calculate_retry_delay attempt)
                (sleeps ++ pre ++ post ++
                  [SleepEv.backoff (calculate_retry_delay attempt)])
        | ExecOutcome.timeoutHit =>
            let now2 := now1 + cfg.timeout
            ewhAux cfg beh remaining (attempt + 1)
              (now2 + calculate_retry_delay attempt)
              (sleeps ++ pre ++
                [SleepEv.backoff (calculate_retry_delay attempt)])
        | ExecOutcome.raised _ dur =>
            let now2 := now1 + dur
            ewhAux cfg beh remaining (attempt + 1)
              (now2 + calculate_retry_delay attempt)
              (sleeps ++ pre ++
                [SleepEv.backoff (calculate_retry_delay attempt)])

/-- Method `PlaywrightAction.execute_with_hooks`: run the attempt loop
for `retry_count + 1` attempts starting at attempt 0, clock 0. -/
def execute_with_hooks (cfg : ActionCfg) (beh : Nat → ExecOutcome) :
    RunOutput :=
  ewhAux cfg beh cfg.retry_count 0 0 []

/-- Backoff sleeps of a sleep trace, in order. -/
def backoffsOf (l : List SleepEv) : List ℚ :=
  l.filterMap (fun e =>
    match e with
    | SleepEv.backoff q => some q
    | _ => none)

/-- Count of `wait_before` sleeps in a trace. -/
def beforeCount (l : List SleepEv) : Nat :=
  l.countP (fun e =>
    match e with
    | SleepEv.beforeSleep _ => true
    | _ => false)

/-- Count of `wait_after` sleeps in a trace. -/
def afterCount (l : List SleepEv) : Nat :=
  l.countP (fun e =>
    match e with
    | SleepEv.afterSleep _ => true
    | _ => false)

/-- A behavior outcome that is not a returned success result (a failure
result, a timeout, or an exception). -/
def execNonSuccess (o : ExecOutcome) : Prop :=
  ∀ r d, o = ExecOutcome.res r d → r.success = false

/-- Model time spent inside one attempt by its `execute` phase plus the
`post_execute` hook (which only runs when `execute` returned a result). -/
def outcomeElapsed (cfg : ActionCfg) : ExecOutcome → ℚ
  | ExecOutcome.res _ d => d + postTime cfg
  | ExecOutcome.timeoutHit => cfg.timeout
  | ExecOutcome.raised _ d => d

/-- Total model time of one full (non-pre-raising) attempt. -/
def attemptElapsed (cfg : ActionCfg) (beh : Nat → ExecOutcome) (i : Nat) :
    ℚ :=
  preTime cfg + outcomeElapsed cfg (beh i)

/-- Sleeps of one full (non-pre-raising) attempt, backoff excluded. -/
def attemptSleeps (cfg : ActionCfg) (beh : Nat → ExecOutcome) (i : Nat) :
    List SleepEv :=
  preSleepList cfg ++
    (match beh i with
     | ExecOutcome.res _ _ => postSleepList cfg
     | _ => [])

/-- Model time of the first `n` attempts starting at `attempt`, each
followed by its backoff sleep. -/
def elapsedSeg (cfg : ActionCfg) (beh : Nat → ExecOutcome)
    (attempt n : Nat) : ℚ :=
  ((List.range' attempt n).map
    (fun i => attemptElapsed cfg beh i + calculate_retry_delay i)).sum

/-- Sleep trace of the first `n` attempts starting at `attempt`, each
followed by its backoff sleep. -/
def traceSeg (cfg : ActionCfg) (beh : Nat → ExecOutcome)
    (attempt n : Nat) : List SleepEv :=
  ((List.range' attempt n).map
    (fun i => attemptSleeps cfg beh i ++
      [SleepEv.backoff (calculate_retry_delay i)])).flatten

/-! ## ComposedAction.execute (`actions/base.py`) -/

/-- Outcome of one sub-action's full `execute_with_hooks` call as seen
by `ComposedAction.execute`: it returns a result, or it raises. -/
inductive StepOutcome : Type where
  | returns (r : MActionResult)
  | raised (msg : String)

/-- A sub-action of a `ComposedAction`: its `action_type` plus what its
`execute_with_hooks` does. -/
structure MSubAction : Type where
  action_type : String
  outcome : StepOutcome

/-- Rendering of an optional string in an f-string (`None` for absent). -/
def optRepr (o : Option String) : String :=
  match o with
  | none => "None"
  | some s => s

/-- Error message of the stop-on-failure return of
`ComposedAction.execute` for a failing step result. -/
def composedFailMsg (step : Nat) (atype : String) (err : Option String) :
    String :=
  "Composed action failed at step " ++ toString step ++ " (" ++ atype ++
    "): " ++ optRepr err

/-- Error message for a sub-action that raised. -/
def composedExcMsg (step : Nat) (msg : String) : String :=
  "Exception in composed action step " ++ toString step ++ ": " ++ msg

/-- Embedding of an optional string as a dict value. -/
def optStrVal (o : Option String) : MValue :=
  match o with
  | none => MValue.vnone
  | some s => MValue.vstr s

/-- Embedding of an optional rational as a dict value. -/
def optRatVal (o : Option ℚ) : MValue :=
  match o with
  | none => MValue.vnone
  | some q => MValue.vrat q

/-- Embedding of an optional nat as a dict value. -/
def optNatVal (o : Option Nat) : MValue :=
  match o with
  | none => MValue.vnone
  | some n => MValue.vnat n

/-- Embedding of an optional dict as a dict value. -/
def optDictVal (o : Option (List (String × MValue))) : MValue :=
  match o with
  | none => MValue.vnone
  | some d => MValue.vdict d

/-- The per-step record appended to `results` by `ComposedAction.execute`
when `collect_results` is set. -/
def stepRecord (step : Nat) (atype : String) (o : StepOutcome) : MValue :=
  match o with
  | StepOutcome.returns r =>
      MValue.vdict
        [("step", MValue.vnat step),
         ("action_type", MValue.vstr atype),
         ("success", MValue.vbool r.success),
         ("error", optStrVal r.error),
         ("execution_time", optRatVal r.execution_time),
         ("data", optDictVal r.data)]
  | StepOutcome.raised msg =>
      MValue.vdict
        [("step", MValue.vnat step),
         ("action_type", MValue.vstr atype),
         ("success", MValue.vbool false),
         ("error", MValue.vstr msg),
         ("execution_time", MValue.vnone),
         ("data", MValue.vnone)]

/-- The `results=results if self.collect_results else None` keyword. -/
def resultsMeta (coll : Bool) (results : List MValue) : MValue :=
  if coll then MValue.vlist results else MValue.vnone

/-- The loop of `ComposedAction.execute` over the remaining sub-actions.
`total` is the full list length, `i` the 0-based index of the next step,
`results` the collected step records, `failedAt` the Python
`failed_at_step` variable.  Returns the composed result together with
the number of sub-actions of the remaining list that were executed. -/
def composedAux (stop coll : Bool) (total : Nat) :
    List MSubAction → Nat → List MValue → Option Nat → MActionResult × Nat
  | [], _, results, failedAt =>
      (addMetadata
        (successResult
          (some [("completed_steps", MValue.vnat total),
                 ("total_steps", MValue.vnat total),
                 ("all_succeeded", MValue.vbool failedAt.isNone)])
          (some "composed") [])
        [("results", resultsMeta coll results),
         ("failed_step", optNatVal failedAt)], 0)
  | a :: rest, i, results, failedAt =>
      match a.outcome with
      | StepOutcome.returns r =>
          let results1 :=
            if coll then
              results ++ [stepRecord (i + 1) a.action_type
                (StepOutcome.returns r)]
            else results
          if r.success then
            let next := composedAux stop coll total rest (i + 1) results1
              failedAt
            (next.1, next.2 + 1)
          else if stop then
            (addMetadata
              (failureResult (composedFailMsg (i + 1) a.action_type r.error)
                (some "composed"))
              [("completed_steps", MValue.vnat i),
               ("failed_step", MValue.vnat (i + 1)),
               ("total_steps", MValue.vnat total),
               ("results", resultsMeta coll results1)], 1)
          else
            let next := composedAux stop coll total rest (i + 1) results1
              (some (i + 1))
            (next.1, next.2 + 1)
      | StepOutcome.raised msg =>
          let results1 :=
            if coll then
              results ++ [stepRecord (i + 1) a.action_type
                (StepOutcome.raised msg)]
            else results
          if stop then
            (addMetadata
              (failureResult (composedExcMsg (i + 1) msg) (some "composed"))
              [("completed_steps", MValue.vnat i),
               ("failed_step", MValue.vnat (i + 1)),
               ("total_steps", MValue.vnat total),
               ("results", resultsMeta coll results1)], 1)
          else
            let next := composedAux stop coll total rest (i + 1) results1
              failedAt
            (next.1, next.2 + 1)

/-- Method `ComposedAction.execute`: run all sub-actions in sequence.
Also returns how many sub-actions were executed (invoked at all). -/
def composed_execute (stop coll : Bool) (actions : List MSubAction) :
    MActionResult × Nat :=
  composedAux stop coll actions.length actions 0 [] none

/-- The 1-based index of the last sub-action that returned a failure
result — the value of the Python `failed_at_step` variable at loop end
(sub-actions that raised do not update it when `stop_on_failure` is
off). -/
def lastRetFailAux (i : Nat) (acc : Option Nat) :
    List MSubAction → Option Nat
  | [] => acc
  | a :: rest =>
      lastRetFailAux (i + 1)
        (match a.outcome with
         | StepOutcome.returns r => if r.success then acc else some (i + 1)
         | StepOutcome.raised _ => acc) rest

/-- Final `failed_at_step` over a whole action list. -/
def lastRetFail (actions : List MSubAction) : Option Nat :=
  lastRetFailAux 0 none actions

/-! ## BrowserLogger._handle_event (`core/logger.py`) -/

/-- Outcome of one `event_filter.should_process(event)` call: it returns
`True`, returns `False`, or raises. -/
inductive FilterOutcome : Type where
  | passes
  | blocks
  | raises (msg : String)

/-- The filter loop of `BrowserLogger._handle_event` followed by the
buffer append: a filter returning `False` makes the method return
without appending; a raising filter hits the `except` branch, whose
`continue` moves on to the next filter; when the loop completes the
event is appended to the buffer. -/
def handleEventAux (ev : MEvent) (buffer : List MEvent) :
    List (MEvent → FilterOutcome) → List MEvent
  | [] => buffer ++ [ev]
  | f :: rest =>
      match f ev with
      | FilterOutcome.blocks => buffer
      | FilterOutcome.passes => handleEventAux ev buffer rest
      | FilterOutcome.raises _ => handleEventAux ev buffer rest

/-- Method `BrowserLogger._handle_event`, restricted to its effect on
the buffer (the auto-flush signal is downstream of the append and does
not affect whether the event is appended). -/
def handle_event (filters : List (MEvent → FilterOutcome)) (ev : MEvent)
    (buffer : List MEvent) : List MEvent :=
  handleEventAux ev buffer filters

/-- Whether a filter outcome is a `False` verdict. -/
def isBlocks (o : FilterOutcome) : Bool :=
  match o with
  | FilterOutcome.blocks => true
  | _ => false

/-! ## Selector validation (`utils/validation.py`) -/

/-- The single-quote character (code 39). -/
def quoteChr : Char := Char.ofNat 39

/-- The backtick character (code 96). -/
def backtickChr : Char := Char.ofNat 96

/-- ASCII whitespace as recognized by `str.strip` and the `\s` class. -/
def isSpaceCh (c : Char) : Bool :=
  c = ' ' || c = Char.ofNat 9 || c = Char.ofNat 10 || c = Char.ofNat 13 ||
    c = Char.ofNat 11 || c = Char.ofNat 12

/-- The `str.strip()` of Python on a character list. -/
def stripChars (s : List Char) : List Char :=
  ((s.dropWhile isSpaceCh).reverse.dropWhile isSpaceCh).reverse

/-- The `str.lower()` of Python (ASCII case fold). -/
def toLowerList (s : List Char) : List Char :=
  s.map Char.toLower

/-- Whether `s` starts with the pattern `p`. -/
def startsWithL : List Char → List Char → Bool
  | [], _ => true
  | _ :: _, [] => false
  | a :: ps, b :: ss => a = b && startsWithL ps ss

/-- Whether `p` occurs as a contiguous substring of the second list
(the Python `in` operator on strings). -/
def containsSub (p : List Char) : List Char → Bool
  | [] => startsWithL p []
  | b :: rest => startsWithL p (b :: rest) || containsSub p rest

/-- The `forbidden_chars` list of `validate_css_selector`. -/
def cssForbidden : List Char := ['<', '>', '"', quoteChr, backtickChr]

/-- The `dangerous_patterns` list shared by both validators.  They are
tested with `in` against the **lowercased** selector, so the two
mixed-case patterns can never match. -/
def dangerousPatterns : List (List Char) :=
  [String.data "javascript:", String.data "data:",
   String.data "vbscript:", String.data "expression(",
   String.data "eval(", String.data "setTimeout",
   String.data "setInterval"]

/-- Character class of the CSS selector regex (letters, digits, and the
punctuation the pattern lists; quote characters are in the class but are
unreachable after the forbidden-character check). -/
def cssAllowedChar (c : Char) : Bool :=
  c.isAlpha || c.isDigit || isSpaceCh c ||
    ['-', '_', '#', '.', '[', ']', '=', ':', '(', ')', ',', '"',
      quoteChr, '*', '+', '~', '^', '$', '|', '>'].contains c

/-- Character class of the XPath selector regex. -/
def xpathAllowedChar (c : Char) : Bool :=
  c.isAlpha || c.isDigit || isSpaceCh c ||
    ['-', '_', '[', ']', '@', '=', '(', ')', ':', ',', '.', '"',
      quoteChr, '*', '/', '+', '\\', '|'].contains c

/-- The `xpath_starts` token list. -/
def xpathStarts : List (List Char) :=
  [String.data "/", String.data "//", String.data "./",
   String.data "../", String.data ".", String.data "(",
   String.data "id(", String.data "name(", String.data "class(",
   String.data "text()", String.data "contains(",
   String.data "starts-with(", String.data "normalize-space(",
   String.data "following:", String.data "preceding:",
   String.data "ancestor:", String.data "descendant:",
   String.data "child:", String.data "parent:", String.data "self:"]

/-- The `xpath_indicators` token list. -/
def xpathIndicators : List (List Char) :=
  [String.data "//", String.data "[@", String.data "[contains(",
   String.data "[text()", String.data "following::",
   String.data "preceding::"]

/-- The bracket/parenthesis balance scan shared by both validators: a
stack of expected closers; an unexpected or missing closer fails, and
the stack must be empty at the end. -/
def balanceOk : List Char → List Char → Bool
  | [], stack => stack.isEmpty
  | c :: rest, stack =>
      if c = '[' then balanceOk rest (']' :: stack)
      else if c = '(' then balanceOk rest (')' :: stack)
      else if c = ']' || c = ')' then
        match stack with
        | [] => false
        | top :: stack1 => if top = c then balanceOk rest stack1 else false
      else balanceOk rest stack

/-- Function `validate_css_selector` on a character list. -/
def validateCssL (s : List Char) : Bool :=
  if s.isEmpty then false
  else
    let t := stripChars s
    if t.isEmpty then false
    else if t.any (fun c => cssForbidden.contains c) then false
    else if dangerousPatterns.any
        (fun p => containsSub p (toLowerList t)) then false
    else if !(t.all cssAllowedChar) then false
    else balanceOk t []

/-- Function `validate_css_selector` of `utils/validation.py`. -/
def validate_css_selector (s : String) : Bool :=
  validateCssL s.data

/-- Function `validate_xpath_selector` on a character list. -/
def validateXpathL (s : List Char) : Bool :=
  if s.isEmpty then false
  else
    let t := stripChars s
    if t.isEmpty then false
    else if t.any (fun c => c = '<' || c = '>') then false
    else if dangerousPatterns.any
        (fun p => containsSub p (toLowerList t)) then false
    else if !(xpathStarts.any (fun p => startsWithL p t) ||
        xpathIndicators.any (fun p => containsSub p t)) then false
    else if !(t.all xpathAllowedChar) then false
    else balanceOk t []

/-- Function `validate_xpath_selector` of `utils/validation.py`. -/
def validate_xpath_selector (s : String) : Bool :=
  validateXpathL s.data

/-! ## Theorems: event emission (C1) -/

/-- Whether a handler outcome is a normal return. -/
def isOkOutcome (o : HOutcome) : Bool :=
  match o with
  | HOutcome.ok => true
  | HOutcome.failed _ _ => false

/-- The error entry produced by an indexed handler outcome, if failed. -/
def errEntryOf (p : Nat × HOutcome) : Option ErrEntry :=
  match p.2 with
  | HOutcome.ok => none
  | HOutcome.failed ty msg => some ⟨p.1, ty, msg⟩

lemma errEntries_length (rs : List HOutcome) :
    ∀ i, ((rs.enumFrom i).filterMap errEntryOf).length =
      rs.countP (fun o => !(isOkOutcome o)) := by
  induction rs with
  | nil => intro i; simp [List.enumFrom]
  | cons o rest ih =>
      intro i
      cases o with
      | ok =>
          simp [List.enumFrom, List.filterMap_cons, errEntryOf, isOkOutcome,
            List.countP_cons, ih (i + 1)]
      | failed ty msg =>
          simp [List.enumFrom, List.filterMap_cons, errEntryOf, isOkOutcome,
            List.countP_cons, ih (i + 1)]

lemma countP_ok_add (l : List HOutcome) :
    l.countP isOkOutcome + l.countP (fun o => !(isOkOutcome o)) =
      l.length := by
  induction l with
  | nil => simp
  | cons a t ih =>
      cases ha : isOkOutcome a <;> simp [List.countP_cons, ha] <;> omega

lemma analyzeFrom_spec (rs : List HOutcome) :
    ∀ i, analyzeFrom i rs =
      (rs.countP isOkOutcome, rs.countP (fun o => !(isOkOutcome o)),
        (rs.enumFrom i).filterMap errEntryOf) := by
  induction rs with
  | nil => intro i; simp [analyzeFrom, List.enumFrom]
  | cons o rest ih =>
      intro i
      cases o with
      | ok =>
          simp [analyzeFrom, ih (i + 1), List.countP_cons, List.enumFrom,
            List.filterMap_cons, errEntryOf, isOkOutcome]
      | failed ty msg =>
          simp [analyzeFrom, ih (i + 1), List.countP_cons, List.enumFrom,
            List.filterMap_cons, errEntryOf, isOkOutcome]

/-- Claim C1: for every registry and event, `emit` returns (it is a total
function — no handler outcome can make it raise), the summary counts
every registered handler for the event's type, `handlers_succeeded +
handlers_failed = handlers_called`, the `errors` list has exactly one
entry per failed handler carrying its index, exception type and message,
and with no handlers registered all counts are zero with an empty error
list. -/
theorem c1_emit_isolation (reg : List (String × List MHandler))
    (ev : MEvent) :
    (emit reg ev).event_type = ev.event_type ∧
    (emit reg ev).handlers_called =
      (lookupHandlers reg ev.event_type).length ∧
    (emit reg ev).handlers_succeeded =
      ((lookupHandlers reg ev.event_type).map (fun h => h ev)).countP
        isOkOutcome ∧
    (emit reg ev).handlers_failed =
      ((lookupHandlers reg ev.event_type).map (fun h => h ev)).countP
        (fun o => !(isOkOutcome o)) ∧
    (emit reg ev).handlers_succeeded + (emit reg ev).handlers_failed =
      (emit reg ev).handlers_called ∧
    (emit reg ev).errors =
      (((lookupHandlers reg ev.event_type).map (fun h => h ev)).enum
        ).filterMap errEntryOf ∧
    (emit reg ev).errors.length = (emit reg ev).handlers_failed := by
  unfold emit
  by_cases hemp : (lookupHandlers reg ev.event_type).isEmpty
  · rw [List.isEmpty_iff] at hemp
    simp [hemp]
  · simp only [hemp, if_false, Bool.false_eq_true]
    rw [List.isEmpty_iff] at hemp
    have hspec := analyzeFrom_spec
      ((lookupHandlers reg ev.event_type).map (fun h => h ev)) 0
    simp only [hspec, List.enum]
    refine ⟨by trivial, by trivial, by trivial, by trivial, ?_, by trivial,
      ?_⟩
    · rw [← List.length_map (lookupHandlers reg ev.event_type)
        (fun h => h ev)]
      exact countP_ok_add _
    · exact errEntries_length _ 0

/-! ## Theorems: logger filter chain (C8) -/

/-- Counterexample to claim C8: a single filter whose `should_process`
raises does NOT make `_handle_event` skip the event.  The `continue` in
the `except` branch skips the *filter* and, with no further filter
returning `False`, the event is appended to the buffer. -/
theorem c8_cex :
    handle_event [fun _ => FilterOutcome.raises "boom"]
      { event_type := "interaction" } [] =
      [{ event_type := "interaction" }] := rfl

/-- Claim C8 as amended: `_handle_event` never lets a filter exception
propagate (it is a total function of the filter outcomes), a raising
filter is treated as passing (fail-open), and the event is appended to
the buffer exactly when no filter returns `False` without raising. -/
theorem c8_amended_fail_open (filters : List (MEvent → FilterOutcome))
    (ev : MEvent) (buffer : List MEvent) :
    handle_event filters ev buffer =
      if filters.all (fun f => !(isBlocks (f ev))) then buffer ++ [ev]
      else buffer := by
  unfold handle_event
  induction filters with
  | nil => simp [handleEventAux]
  | cons f rest ih =>
      cases hf : f ev <;>
        simp [handleEventAux, hf, isBlocks, List.all_cons, ih]

/-! ## Theorems: action metrics (C10) -/

lemma record_result_counts (m : MActionMetrics) (r : MActionResult) :
    (record_result m r).total_actions = m.total_actions + 1 ∧
    (record_result m r).successful_actions +
        (record_result m r).failed_actions +
        (record_result m r).timeout_actions =
      m.successful_actions + m.failed_actions + m.timeout_actions + 1 := by
  unfold record_result
  rcases het : r.execution_time with _ | t
  · cases hs : r.success <;>
      by_cases hst : r.status = MStatus.timeout <;>
        simp [hs, hst, het] <;> omega
  · cases hs : r.success <;>
      by_cases hst : r.status = MStatus.timeout <;>
        by_cases ht : t = 0 <;>
          simp [hs, hst, het, ht] <;> omega

lemma foldl_record_inv (rs : List MActionResult) :
    ∀ m : MActionMetrics,
      m.total_actions =
        m.successful_actions + m.failed_actions + m.timeout_actions →
      (rs.foldl record_result m).total_actions =
        (rs.foldl record_result m).successful_actions +
          (rs.foldl record_result m).failed_actions +
          (rs.foldl record_result m).timeout_actions := by
  induction rs with
  | nil => intro m hm; simpa using hm
  | cons r rest ih =>
      intro m hm
      have hc := record_result_counts m r
      exact ih (record_result m r) (by omega)

lemma success_rate_bounds (m : MActionMetrics)
    (h : m.successful_actions ≤ m.total_actions) :
    0 ≤ success_rate m ∧ success_rate m ≤ 100 := by
  unfold success_rate
  by_cases h0 : m.total_actions = 0
  · simp [h0]
  · simp only [h0, if_false]
    have hpos : (0 : ℚ) < (m.total_actions : ℚ) := by
      exact_mod_cast Nat.pos_of_ne_zero h0
    constructor
    · positivity
    · have hle : (m.successful_actions : ℚ) / (m.total_actions : ℚ) ≤ 1 := by
        rw [div_le_one hpos]
        exact_mod_cast h
      calc (m.successful_actions : ℚ) / (m.total_actions : ℚ) * 100
          ≤ 1 * 100 := by
            exact mul_le_mul_of_nonneg_right hle (by norm_num)
        _ = 100 := by norm_num

/-- Claim C10: `reset` restores the all-zero initial state; every
`record_result` call increments `total_actions` and exactly one of the
three category counters; hence after any sequence of `record_result`
calls from the initial (or just-reset) state,
`total_actions = successful_actions + failed_actions + timeout_actions`,
and `success_rate` lies in `[0, 100]`, being `0` when `total_actions`
is `0`. -/
theorem c10_metrics_invariant :
    (∀ m : MActionMetrics, resetMetrics m = initialMetrics) ∧
    (∀ (m : MActionMetrics) (r : MActionResult),
      (record_result m r).total_actions = m.total_actions + 1 ∧
      (record_result m r).successful_actions +
          (record_result m r).failed_actions +
          (record_result m r).timeout_actions =
        m.successful_actions + m.failed_actions + m.timeout_actions + 1) ∧
    (∀ rs : List MActionResult,
      (rs.foldl record_result initialMetrics).total_actions =
        (rs.foldl record_result initialMetrics).successful_actions +
          (rs.foldl record_result initialMetrics).failed_actions +
          (rs.foldl record_result initialMetrics).timeout_actions ∧
      0 ≤ success_rate (rs.foldl record_result initialMetrics) ∧
      success_rate (rs.foldl record_result initialMetrics) ≤ 100 ∧
      ((rs.foldl record_result initialMetrics).total_actions = 0 →
        success_rate (rs.foldl record_result initialMetrics) = 0)) := by
  refine ⟨fun m => rfl, record_result_counts, fun rs => ?_⟩
  have hinv := foldl_record_inv rs initialMetrics (by rfl)
  have hb := success_rate_bounds (rs.foldl record_result initialMetrics)
    (by omega)
  refine ⟨hinv, hb.1, hb.2, fun h0 => ?_⟩
  unfold success_rate
  simp [h0]

/-- Witness for C10 at a concrete input: the empty record stream has
rate `0`, and recording one concrete success increments `total_actions`
to `1`. -/
theorem c10_metrics_invariant_witness :
    success_rate (List.foldl record_result initialMetrics []) = 0 ∧
    (record_result initialMetrics
        (successResult none (some "click") [])).total_actions = 0 + 1 := by
  refine ⟨(c10_metrics_invariant.2.2 []).2.2.2 rfl, ?_⟩
  exact (c10_metrics_invariant.2.1 initialMetrics
    (successResult none (some "click") [])).1

/-! ## Theorems: composed actions (C4, C5) -/

lemma composedAux_stop_first_fail (coll : Bool) (total : Nat)
    (pre : List MSubAction) :
    ∀ (i : Nat) (results : List MValue) (failedAt : Option Nat)
      (a : MSubAction) (r : MActionResult) (rest : List MSubAction),
      (∀ b ∈ pre, ∃ rb, b.outcome = StepOutcome.returns rb ∧
        rb.success = true) →
      a.outcome = StepOutcome.returns r →
      r.success = false →
      ∃ res,
        composedAux true coll total (pre ++ a :: rest) i results failedAt =
          ({ success := false
             status := MStatus.failure
             data := none
             error := some (composedFailMsg (i + pre.length + 1)
               a.action_type r.error)
             metadata :=
               [("completed_steps", MValue.vnat (i + pre.length)),
                ("failed_step", MValue.vnat (i + pre.length + 1)),
                ("total_steps", MValue.vnat total),
                ("results", res)]
             execution_time := none
             retry_count := 0
             action_type := some "composed" }, pre.length + 1) := by
  induction pre with
  | nil =>
      intro i results failedAt a r rest hpre ha hr
      refine ⟨resultsMeta coll (if coll then
        results ++ [stepRecord (i + 1) a.action_type
          (StepOutcome.returns r)] else results), ?_⟩
      simp only [List.nil_append, composedAux, ha, hr, if_false,
        Bool.false_eq_true, if_true]
      simp [addMetadata, failureResult, dictUpdate, dictSet]
  | cons b pre1 ih =>
      intro i results failedAt a r rest hpre ha hr
      obtain ⟨rb, hb, hbs⟩ := hpre b (by simp)
      have hpre1 : ∀ c ∈ pre1, ∃ rc, c.outcome = StepOutcome.returns rc ∧
          rc.success = true :=
        fun c hc => hpre c (by simp [hc])
      obtain ⟨res, hres⟩ := ih (i + 1)
        (if coll then results ++ [stepRecord (i + 1) b.action_type
          (StepOutcome.returns rb)] else results) failedAt a r rest hpre1
        ha hr
      refine ⟨res, ?_⟩
      simp only [List.cons_append, composedAux, hb, hbs, if_true,
        List.append_eq]
      rw [hres]
      have h1 : i + 1 + pre1.length = i + (pre1.length + 1) := by omega
      simp only [List.length_cons, h1]

/-- Claim C4: for a `ComposedAction` with `stop_on_failure = true`, when
the sub-action at 1-based step `k` is the first to fail (all earlier
steps returned success results), `execute` returns a failure result
whose error names step `k` and that sub-action's `action_type`, whose
metadata holds `completed_steps = k - 1`, `failed_step = k`,
`total_steps = n`, and exactly `k` sub-actions were executed — none
after step `k`. -/
theorem c4_composed_stop_on_failure (coll : Bool) (pre : List MSubAction)
    (a : MSubAction) (r : MActionResult) (rest : List MSubAction)
    (hpre : ∀ b ∈ pre, ∃ rb, b.outcome = StepOutcome.returns rb ∧
      rb.success = true)
    (ha : a.outcome = StepOutcome.returns r)
    (hr : r.success = false) :
    (composed_execute true coll (pre ++ a :: rest)).2 = pre.length + 1 ∧
    (composed_execute true coll (pre ++ a :: rest)).1.success = false ∧
    (composed_execute true coll (pre ++ a :: rest)).1.status =
      MStatus.failure ∧
    (composed_execute true coll (pre ++ a :: rest)).1.error =
      some (composedFailMsg (pre.length + 1) a.action_type r.error) ∧
    ∃ res, (composed_execute true coll (pre ++ a :: rest)).1.metadata =
      [("completed_steps", MValue.vnat pre.length),
       ("failed_step", MValue.vnat (pre.length + 1)),
       ("total_steps", MValue.vnat (pre ++ a :: rest).length),
       ("results", res)] := by
  obtain ⟨res, hres⟩ := composedAux_stop_first_fail coll
    (pre ++ a :: rest).length pre 0 [] none a r rest hpre ha hr
  unfold composed_execute
  rw [hres]
  refine ⟨rfl, rfl, rfl, by simp, res, by simp⟩

/-- Witness for C4 at a concrete input: one succeeding step followed by
one failing step and one step that is never reached. -/
theorem c4_composed_stop_on_failure_witness :
    (composed_execute true true
      [⟨"first", StepOutcome.returns (successResult none (some "first") [])⟩,
       ⟨"second", StepOutcome.returns
         (failureResult "Mock action failed" (some "second"))⟩,
       ⟨"third", StepOutcome.returns
         (successResult none (some "third") [])⟩]).2 = 2 ∧
    (composed_execute true true
      [⟨"first", StepOutcome.returns (successResult none (some "first") [])⟩,
       ⟨"second", StepOutcome.returns
         (failureResult "Mock action failed" (some "second"))⟩,
       ⟨"third", StepOutcome.returns
         (successResult none (some "third") [])⟩]).1.error =
      some (composedFailMsg 2 "second" (some "Mock action failed")) := by
  have h := c4_composed_stop_on_failure true
    [⟨"first", StepOutcome.returns (successResult none (some "first") [])⟩]
    ⟨"second", StepOutcome.returns
      (failureResult "Mock action failed" (some "second"))⟩
    (failureResult "Mock action failed" (some "second"))
    [⟨"third", StepOutcome.returns (successResult none (some "third") [])⟩]
    (by intro b hb
        simp only [List.mem_singleton] at hb
        exact ⟨successResult none (some "first") [], by rw [hb], rfl⟩)
    rfl rfl
  exact ⟨h.1, h.2.2.2.1⟩

/-- Counterexample to claim C5: with `stop_on_failure = false` and a
failing second step, `ComposedAction.execute` returns a result with
`success = true` (the repository's own test asserts this behavior), not
a failure result as the claim states. -/
theorem c5_cex :
    (composed_execute false true
      [⟨"first", StepOutcome.returns (successResult none (some "first") [])⟩,
       ⟨"second", StepOutcome.returns
         (failureResult "Mock action failed" (some "second"))⟩]).1.success =
      true := by rfl

lemma composedAux_continue (coll : Bool) (total : Nat)
    (l : List MSubAction) :
    ∀ (i : Nat) (results : List MValue) (failedAt : Option Nat),
      (composedAux false coll total l i results failedAt).2 = l.length ∧
      (composedAux false coll total l i results failedAt).1.success =
        true ∧
      (composedAux false coll total l i results failedAt).1.status =
        MStatus.success ∧
      (composedAux false coll total l i results failedAt).1.data =
        some [("completed_steps", MValue.vnat total),
              ("total_steps", MValue.vnat total),
              ("all_succeeded",
                MValue.vbool (lastRetFailAux i failedAt l).isNone)] ∧
      ∃ res, (composedAux false coll total l i results failedAt).1.metadata =
        [("results", res),
         ("failed_step", optNatVal (lastRetFailAux i failedAt l))] := by
  induction l with
  | nil =>
      intro i results failedAt
      refine ⟨rfl, rfl, rfl, rfl, resultsMeta coll results, ?_⟩
      simp [composedAux, addMetadata, successResult, dictUpdate, dictSet,
        lastRetFailAux]
  | cons a rest ih =>
      intro i results failedAt
      cases hout : a.outcome with
      | returns r =>
          cases hs : r.success
          · have := ih (i + 1)
              (if coll then results ++ [stepRecord (i + 1) a.action_type
                (StepOutcome.returns r)] else results) (some (i + 1))
            simp only [composedAux, hout, hs, if_false, Bool.false_eq_true,
              lastRetFailAux]
            exact ⟨by rw [this.1]; simp, this.2.1, this.2.2.1, this.2.2.2.1,
              this.2.2.2.2⟩
          · have := ih (i + 1)
              (if coll then results ++ [stepRecord (i + 1) a.action_type
                (StepOutcome.returns r)] else results) failedAt
            simp only [composedAux, hout, hs, if_true, lastRetFailAux]
            exact ⟨by rw [this.1]; simp, this.2.1, this.2.2.1, this.2.2.2.1,
              this.2.2.2.2⟩
      | raised msg =>
          have := ih (i + 1)
            (if coll then results ++ [stepRecord (i + 1) a.action_type
              (StepOutcome.raised msg)] else results) failedAt
          simp only [composedAux, hout, if_false, Bool.false_eq_true,
            lastRetFailAux]
          exact ⟨by rw [this.1]; simp, this.2.1, this.2.2.1, this.2.2.2.1,
            this.2.2.2.2⟩

/-- Claim C5 as amended: with `stop_on_failure = false`,
`ComposedAction.execute` runs every sub-action to the end, but the
overall result always has `success = true` and status `SUCCESS`; a
failing step is reported only through `data.all_succeeded` (true exactly
when no step returned a failure result) and `metadata.failed_step`,
which carries the 1-based index of the last step that returned a failure
result (`None` when there was none; steps that raised do not update
it). -/
theorem c5_amended_continue_on_failure (coll : Bool)
    (actions : List MSubAction) :
    let out := composed_execute false coll actions
    out.2 = actions.length ∧
    out.1.success = true ∧
    out.1.status = MStatus.success ∧
    out.1.data =
      some [("completed_steps", MValue.vnat actions.length),
            ("total_steps", MValue.vnat actions.length),
            ("all_succeeded", MValue.vbool (lastRetFail actions).isNone)] ∧
    ∃ res, out.1.metadata =
      [("results", res), ("failed_step", optNatVal (lastRetFail actions))] :=
  composedAux_continue coll actions.length actions 0 [] none

/-! ## Theorems: selector validation (C9) -/

lemma startsWithL_iff : ∀ (p s : List Char),
    startsWithL p s = true ↔ ∃ v, s = p ++ v
  | [], s => by simp [startsWithL]
  | _ :: _, [] => by simp [startsWithL]
  | a :: ps, b :: ss => by
      simp only [startsWithL, Bool.and_eq_true, decide_eq_true_eq]
      constructor
      · rintro ⟨rfl, h⟩
        obtain ⟨v, rfl⟩ := (startsWithL_iff ps ss).mp h
        exact ⟨v, rfl⟩
      · rintro ⟨v, hv⟩
        injection hv with h1 h2
        exact ⟨h1.symm, (startsWithL_iff ps ss).mpr ⟨v, h2⟩⟩

lemma containsSub_iff : ∀ (p l : List Char),
    containsSub p l = true ↔ ∃ u v, l = u ++ p ++ v
  | p, [] => by
      simp only [containsSub, startsWithL_iff]
      constructor
      · rintro ⟨v, hv⟩
        exact ⟨[], v, by simpa using hv⟩
      · rintro ⟨u, v, huv⟩
        have := huv.symm
        rw [List.append_assoc, List.append_eq_nil] at this
        rcases this with ⟨rfl, h2⟩
        rw [List.append_eq_nil] at h2
        exact ⟨v, by simp [h2.1, h2.2]⟩
  | p, b :: rest => by
      simp only [containsSub, Bool.or_eq_true, startsWithL_iff,
        containsSub_iff p rest]
      constructor
      · rintro (⟨v, hv⟩ | ⟨u, v, huv⟩)
        · exact ⟨[], v, by simpa using hv⟩
        · exact ⟨b :: u, v, by simp [huv]⟩
      · rintro ⟨u, v, huv⟩
        cases u with
        | nil => exact Or.inl ⟨v, by simpa using huv⟩
        | cons x u1 =>
            rw [List.append_assoc] at huv
            injection huv with h1 h2
            exact Or.inr ⟨u1, v, by rw [h2, List.append_eq,
              List.append_assoc]⟩

lemma containsSub_reverse (p l : List Char) :
    containsSub p.reverse l.reverse = containsSub p l := by
  by_cases h : containsSub p l = true
  · rw [h]
    obtain ⟨u, v, rfl⟩ := (containsSub_iff p l).mp h
    exact (containsSub_iff _ _).mpr
      ⟨v.reverse, u.reverse, by simp [List.reverse_append,
        List.append_assoc]⟩
  · rw [Bool.not_eq_true] at h
    rw [h]
    cases hrt : containsSub p.reverse l.reverse with
    | false => rfl
    | true =>
        exfalso
        obtain ⟨u, v, heq⟩ := (containsSub_iff _ _).mp hrt
        have hl : l = v.reverse ++ p ++ u.reverse := by
          have := congrArg List.reverse heq
          simpa [List.reverse_append, List.append_assoc] using this
        have : containsSub p l = true :=
          (containsSub_iff p l).mpr ⟨v.reverse, u.reverse, hl⟩
        rw [h] at this
        exact Bool.false_ne_true this

lemma toLower_space (c : Char) (h : isSpaceCh c = true) :
    Char.toLower c = c := by
  simp only [isSpaceCh, Bool.or_eq_true, decide_eq_true_eq] at h
  rcases h with ((((rfl | rfl) | rfl) | rfl) | rfl) | rfl <;> decide

lemma containsSub_lower_dropWhile (p : List Char) (hp : p ≠ [])
    (hns : ∀ c ∈ p, isSpaceCh c = false) (l : List Char) :
    containsSub p (toLowerList l) = true →
      containsSub p (toLowerList (l.dropWhile isSpaceCh)) = true := by
  induction l with
  | nil => intro h; simpa using h
  | cons b rest ih =>
      intro h
      by_cases hb : isSpaceCh b = true
      · rw [List.dropWhile_cons, if_pos hb]
        apply ih
        simp only [toLowerList, List.map_cons, containsSub,
          Bool.or_eq_true] at h
        rcases h with hsw | hcs
        · exfalso
          cases p with
          | nil => exact hp rfl
          | cons a ps =>
              simp only [startsWithL, Bool.and_eq_true,
                decide_eq_true_eq] at hsw
              have ha : a = b := by rw [hsw.1, toLower_space b hb]
              have := hns a (List.mem_cons_self a ps)
              rw [ha, hb] at this
              exact absurd this (by decide)
        · exact hcs
      · rw [List.dropWhile_cons, if_neg hb]
        exact h

lemma containsSub_lower_strip (p : List Char) (hp : p ≠ [])
    (hns : ∀ c ∈ p, isSpaceCh c = false) (l : List Char)
    (h : containsSub p (toLowerList l) = true) :
    containsSub p (toLowerList (stripChars l)) = true := by
  have h1 := containsSub_lower_dropWhile p hp hns l h
  have hp2 : p.reverse ≠ [] := by simpa using hp
  have hns2 : ∀ c ∈ p.reverse, isSpaceCh c = false :=
    fun c hc => hns c (List.mem_reverse.mp hc)
  have hrev1 : containsSub p.reverse
      (toLowerList ((l.dropWhile isSpaceCh).reverse)) = true := by
    show containsSub p.reverse
      ((l.dropWhile isSpaceCh).reverse.map Char.toLower) = true
    rw [List.map_reverse, containsSub_reverse]
    exact h1
  have h3 := containsSub_lower_dropWhile p.reverse hp2 hns2
    ((l.dropWhile isSpaceCh).reverse) hrev1
  unfold stripChars
  show containsSub p
    ((((l.dropWhile isSpaceCh).reverse.dropWhile isSpaceCh).reverse).map
      Char.toLower) = true
  rw [List.map_reverse]
  rw [← List.reverse_reverse p, containsSub_reverse]
  exact h3

lemma mem_dropWhile_of_mem {c : Char} (hc : isSpaceCh c = false) :
    ∀ l : List Char, c ∈ l → c ∈ l.dropWhile isSpaceCh := by
  intro l
  induction l with
  | nil => simp
  | cons b rest ih =>
      intro hm
      rw [List.dropWhile_cons]
      by_cases hb : isSpaceCh b = true
      · rw [if_pos hb]
        rcases List.mem_cons.mp hm with rfl | hm2
        · rw [hb] at hc; exact absurd hc (by simp)
        · exact ih hm2
      · rw [if_neg hb]
        exact hm

lemma mem_stripChars {c : Char} (hc : isSpaceCh c = false)
    {l : List Char} (hm : c ∈ l) : c ∈ stripChars l := by
  unfold stripChars
  apply List.mem_reverse.mpr
  apply mem_dropWhile_of_mem hc
  apply List.mem_reverse.mpr
  exact mem_dropWhile_of_mem hc l hm

lemma forbidden_nonspace (c : Char) (h : c ∈ cssForbidden) :
    isSpaceCh c = false := by
  simp only [cssForbidden, List.mem_cons, List.not_mem_nil, or_false] at h
  rcases h with h | h | h | h | h <;> subst h <;> decide

lemma cssFalse_empty (l : List Char) (h : stripChars l = []) :
    validateCssL l = false := by
  by_cases h1 : l.isEmpty = true
  · simp only [validateCssL]; rw [if_pos h1]
  · simp only [validateCssL]; rw [if_neg h1, if_pos (by rw [h]; rfl)]

lemma xpathFalse_empty (l : List Char) (h : stripChars l = []) :
    validateXpathL l = false := by
  by_cases h1 : l.isEmpty = true
  · simp only [validateXpathL]; rw [if_pos h1]
  · simp only [validateXpathL]; rw [if_neg h1, if_pos (by rw [h]; rfl)]

lemma cssFalse_forbidden (l : List Char) (c : Char)
    (hc : c ∈ cssForbidden) (hl : c ∈ l) : validateCssL l = false := by
  have ht : c ∈ stripChars l := mem_stripChars (forbidden_nonspace c hc) hl
  have hany : (stripChars l).any (fun x => cssForbidden.contains x) =
      true :=
    List.any_eq_true.mpr ⟨c, ht, by
      have hc2 := hc
      simp only [cssForbidden, List.mem_cons, List.not_mem_nil,
        or_false] at hc2
      rcases hc2 with rfl | rfl | rfl | rfl | rfl <;> decide⟩
  simp only [validateCssL]
  split_ifs <;> rfl

lemma xpathFalse_angle (l : List Char) (c : Char)
    (hc : c = '<' ∨ c = '>') (hl : c ∈ l) : validateXpathL l = false := by
  have hcs : isSpaceCh c = false := by rcases hc with rfl | rfl <;> decide
  have ht : c ∈ stripChars l := mem_stripChars hcs hl
  have hany : (stripChars l).any (fun x => x = '<' || x = '>') = true :=
    List.any_eq_true.mpr ⟨c, ht, by rcases hc with rfl | rfl <;> simp⟩
  simp only [validateXpathL]
  split_ifs <;> rfl

lemma cssFalse_dangerous (l p : List Char) (hp : p ∈ dangerousPatterns)
    (hne : p ≠ []) (hns : ∀ c ∈ p, isSpaceCh c = false)
    (h : containsSub p (toLowerList l) = true) :
    validateCssL l = false := by
  have hd : dangerousPatterns.any
      (fun q => containsSub q (toLowerList (stripChars l))) = true :=
    List.any_eq_true.mpr ⟨p, hp, containsSub_lower_strip p hne hns l h⟩
  simp only [validateCssL]
  split_ifs <;> rfl

lemma xpathFalse_dangerous (l p : List Char) (hp : p ∈ dangerousPatterns)
    (hne : p ≠ []) (hns : ∀ c ∈ p, isSpaceCh c = false)
    (h : containsSub p (toLowerList l) = true) :
    validateXpathL l = false := by
  have hd : dangerousPatterns.any
      (fun q => containsSub q (toLowerList (stripChars l))) = true :=
    List.any_eq_true.mpr ⟨p, hp, containsSub_lower_strip p hne hns l h⟩
  simp only [validateXpathL]
  split_ifs <;> rfl

lemma cssFalse_unbalanced (l : List Char)
    (h : balanceOk (stripChars l) [] = false) : validateCssL l = false := by
  simp only [validateCssL]
  split_ifs <;> first | rfl | exact h

lemma xpathFalse_unbalanced (l : List Char)
    (h : balanceOk (stripChars l) [] = false) :
    validateXpathL l = false := by
  simp only [validateXpathL]
  split_ifs <;> first | rfl | exact h

/-- Counterexample to claim C9, in two independent places.  First,
`validate_xpath_selector` does NOT reject quote characters (its
`forbidden_chars` list is only `<`, `>`): the quoted attribute selector
accepted below contains a single-quote character.  Second, neither
validator rejects the substring `setTimeout`: the pattern is compared
against a lowercased copy of the input and, containing an uppercase
letter, can never match — `validate_css_selector` accepts the exact
string `setTimeout`. -/
theorem c9_cex :
    validate_xpath_selector ("//div[@id=" ++ String.mk [quoteChr] ++ "x" ++
      String.mk [quoteChr] ++ "]") = true ∧
    quoteChr ∈ ("//div[@id=" ++ String.mk [quoteChr] ++ "x" ++
      String.mk [quoteChr] ++ "]").data ∧
    validate_css_selector "setTimeout" = true ∧
    containsSub (String.data "setTimeout") (String.data "setTimeout") =
      true := by decide

/-- Claim C9 as amended: both validators return false on empty or
whitespace-only input; both return false when the input contains `<` or
`>`; `validate_css_selector` (but not `validate_xpath_selector`)
additionally returns false when the input contains a quote character
(double quote, single quote or backtick); both return false when the
lowercased input contains `javascript:` or `eval(` (the `setTimeout`
pattern, by contrast, is dead: it is compared case-sensitively against
the lowercased input and never matches); and both return false when the
brackets or parentheses of the trimmed input are unbalanced. -/
theorem c9_amended_selector_validation (s : String) :
    (stripChars s.data = [] →
      validate_css_selector s = false ∧
        validate_xpath_selector s = false) ∧
    (∀ c : Char, c ∈ s.data → c = '<' ∨ c = '>' →
      validate_css_selector s = false ∧
        validate_xpath_selector s = false) ∧
    (∀ c : Char, c ∈ s.data → c = '"' ∨ c = quoteChr ∨ c = backtickChr →
      validate_css_selector s = false) ∧
    (containsSub (String.data "javascript:") (toLowerList s.data) = true →
      validate_css_selector s = false ∧
        validate_xpath_selector s = false) ∧
    (containsSub (String.data "eval(") (toLowerList s.data) = true →
      validate_css_selector s = false ∧
        validate_xpath_selector s = false) ∧
    (balanceOk (stripChars s.data) [] = false →
      validate_css_selector s = false ∧
        validate_xpath_selector s = false) := by
  refine ⟨?_, ?_, ?_, ?_, ?_, ?_⟩
  · intro h
    exact ⟨cssFalse_empty _ h, xpathFalse_empty _ h⟩
  · intro c hmem hc
    refine ⟨cssFalse_forbidden _ c ?_ hmem, xpathFalse_angle _ c hc hmem⟩
    rcases hc with rfl | rfl <;> decide
  · intro c hmem hc
    refine cssFalse_forbidden _ c ?_ hmem
    rcases hc with rfl | rfl | rfl <;> decide
  · intro h
    have hp : String.data "javascript:" ∈ dangerousPatterns := by decide
    exact ⟨cssFalse_dangerous _ _ hp (by decide) (by decide) h,
      xpathFalse_dangerous _ _ hp (by decide) (by decide) h⟩
  · intro h
    have hp : String.data "eval(" ∈ dangerousPatterns := by decide
    exact ⟨cssFalse_dangerous _ _ hp (by decide) (by decide) h,
      xpathFalse_dangerous _ _ hp (by decide) (by decide) h⟩
  · intro h
    exact ⟨cssFalse_unbalanced _ h, xpathFalse_unbalanced _ h⟩

/-- Witness for C9 (amended) at concrete inputs: an HTML tag is rejected
by both validators, an unbalanced bracket is rejected, and a
`javascript:` payload is rejected. -/
theorem c9_amended_selector_validation_witness :
    validate_css_selector "<script>" = false ∧
    validate_xpath_selector "<script>" = false ∧
    validate_css_selector "[unclosed" = false ∧
    validate_xpath_selector "javascript:alert(1)" = false := by
  have h1 := (c9_amended_selector_validation "<script>").2.1 '<'
    (by decide) (Or.inl rfl)
  have h2 := (c9_amended_selector_validation "[unclosed").2.2.2.2.2
    (by decide)
  have h3 := (c9_amended_selector_validation "javascript:alert(1)").2.2.2.1
    (by decide)
  exact ⟨h1.1, h1.2, h2.1, h3.2⟩

/-! ## Theorems: execute_with_hooks (C2, C3, C6, C7) -/

/-- An attempt outcome that is not a returned success result. -/
def attemptNotSuccess (o : ExecOutcome) : Prop :=
  ∀ r d, o = ExecOutcome.res r d → r.success = false

lemma precheck_false (cfg : ActionCfg)
    (hpre : cfg.validate_before = true → cfg.page_active = true) :
    (cfg.validate_before && !cfg.page_active) = false := by
  cases hv : cfg.validate_before
  · simp
  · simp [hpre hv]

lemma elapsedSeg_zero (cfg : ActionCfg) (beh : Nat → ExecOutcome)
    (attempt : Nat) : elapsedSeg cfg beh attempt 0 = 0 := by
  simp [elapsedSeg]

lemma traceSeg_zero (cfg : ActionCfg) (beh : Nat → ExecOutcome)
    (attempt : Nat) : traceSeg cfg beh attempt 0 = [] := by
  simp [traceSeg]

lemma elapsedSeg_succ (cfg : ActionCfg) (beh : Nat → ExecOutcome)
    (attempt n : Nat) :
    elapsedSeg cfg beh attempt (n + 1) =
      (attemptElapsed cfg beh attempt + calculate_retry_delay attempt) +
        elapsedSeg cfg beh (attempt + 1) n := by
  simp [elapsedSeg, List.range'_succ]

lemma traceSeg_succ (cfg : ActionCfg) (beh : Nat → ExecOutcome)
    (attempt n : Nat) :
    traceSeg cfg beh attempt (n + 1) =
      (attemptSleeps cfg beh attempt ++
        [SleepEv.backoff (calculate_retry_delay attempt)]) ++
        traceSeg cfg beh (attempt + 1) n := by
  simp [traceSeg, List.range'_succ]

lemma ewhAux_step (cfg : ActionCfg) (beh : Nat → ExecOutcome)
    (hpre : cfg.validate_before = true → cfg.page_active = true) :
    ∀ (n remaining attempt : Nat) (now : ℚ) (sleeps : List SleepEv),
      n ≤ remaining →
      (∀ i, attempt ≤ i → i < attempt + n → attemptNotSuccess (beh i)) →
      ewhAux cfg beh remaining attempt now sleeps =
        ewhAux cfg beh (remaining - n) (attempt + n)
          (now + elapsedSeg cfg beh attempt n)
          (sleeps ++ traceSeg cfg beh attempt n) := by
  intro n
  induction n with
  | zero =>
      intro remaining attempt now sleeps _ _
      simp [elapsedSeg_zero, traceSeg_zero]
  | succ n ih =>
      intro remaining attempt now sleeps hle hns
      obtain ⟨rem, rfl⟩ : ∃ rem, remaining = rem + 1 := by
        cases remaining with
        | zero => omega
        | succ r => exact ⟨r, rfl⟩
      have hcond := precheck_false cfg hpre
      have hnsa : attemptNotSuccess (beh attempt) :=
        hns attempt le_rfl (by omega)
      have hns1 : ∀ i, attempt + 1 ≤ i → i < attempt + 1 + n →
          attemptNotSuccess (beh i) :=
        fun i h1 h2 => hns i (by omega) (by omega)
      have harith : rem + 1 - (n + 1) = rem - n := by omega
      have hatt : attempt + 1 + n = attempt + (n + 1) := by omega
      cases hba : beh attempt with
      | res r d =>
        have hrf : r.success = false := hnsa r d hba
        have hstamp : (stampResult cfg r attempt
            (now + preTime cfg + d)).success = false := hrf
        simp only [ewhAux, hcond, Bool.false_eq_true, if_false, hba,
          hstamp]
        rw [ih rem (attempt + 1)
          (now + preTime cfg + d + postTime cfg +
            calculate_retry_delay attempt)
          (sleeps ++ preSleepList cfg ++ postSleepList cfg ++
            [SleepEv.backoff (calculate_retry_delay attempt)])
          (by omega) hns1]
        rw [harith, hatt]
        have hT : now + preTime cfg + d + postTime cfg +
            calculate_retry_delay attempt +
            elapsedSeg cfg beh (attempt + 1) n =
            now + elapsedSeg cfg beh attempt (n + 1) := by
          rw [elapsedSeg_succ]
          simp only [attemptElapsed, outcomeElapsed, hba]
          ring
        have hS : sleeps ++ preSleepList cfg ++ postSleepList cfg ++
            [SleepEv.backoff (calculate_retry_delay attempt)] ++
            traceSeg cfg beh (attempt + 1) n =
            sleeps ++ traceSeg cfg beh attempt (n + 1) := by
          rw [traceSeg_succ]
          simp only [attemptSleeps, hba]
          simp [List.append_assoc]
        rw [hT, hS]
      | timeoutHit =>
        simp only [ewhAux, hcond, Bool.false_eq_true, if_false, hba]
        rw [ih rem (attempt + 1)
          (now + preTime cfg + cfg.timeout + calculate_retry_delay attempt)
          (sleeps ++ preSleepList cfg ++
            [SleepEv.backoff (calculate_retry_delay attempt)])
          (by omega) hns1]
        rw [harith, hatt]
        have hT : now + preTime cfg + cfg.timeout +
            calculate_retry_delay attempt +
            elapsedSeg cfg beh (attempt + 1) n =
            now + elapsedSeg cfg beh attempt (n + 1) := by
          rw [elapsedSeg_succ]
          simp only [attemptElapsed, outcomeElapsed, hba]
          ring
        have hS : sleeps ++ preSleepList cfg ++
            [SleepEv.backoff (calculate_retry_delay attempt)] ++
            traceSeg cfg beh (attempt + 1) n =
            sleeps ++ traceSeg cfg beh attempt (n + 1) := by
          rw [traceSeg_succ]
          simp only [attemptSleeps, hba]
          simp [List.append_assoc]
        rw [hT, hS]
      | raised m d =>
        simp only [ewhAux, hcond, Bool.false_eq_true, if_false, hba]
        rw [ih rem (attempt + 1)
          (now + preTime cfg + d + calculate_retry_delay attempt)
          (sleeps ++ preSleepList cfg ++
            [SleepEv.backoff (calculate_retry_delay attempt)])
          (by omega) hns1]
        rw [harith, hatt]
        have hT : now + preTime cfg + d + calculate_retry_delay attempt +
            elapsedSeg cfg beh (attempt + 1) n =
            now + elapsedSeg cfg beh attempt (n + 1) := by
          rw [elapsedSeg_succ]
          simp only [attemptElapsed, outcomeElapsed, hba]
          ring
        have hS : sleeps ++ preSleepList cfg ++
            [SleepEv.backoff (calculate_retry_delay attempt)] ++
            traceSeg cfg beh (attempt + 1) n =
            sleeps ++ traceSeg cfg beh attempt (n + 1) := by
          rw [traceSeg_succ]
          simp only [attemptSleeps, hba]
          simp [List.append_assoc]
        rw [hT, hS]

lemma ewhAux_success (cfg : ActionCfg) (beh : Nat → ExecOutcome)
    (hpre : cfg.validate_before = true → cfg.page_active = true)
    (remaining attempt : Nat) (now : ℚ) (sleeps : List SleepEv)
    (r : MActionResult) (d : ℚ) (hba : beh attempt = ExecOutcome.res r d)
    (hr : r.success = true) :
    ewhAux cfg beh remaining attempt now sleeps =
      ⟨stampResult cfg r attempt (now + preTime cfg + d), attempt + 1,
        sleeps ++ preSleepList cfg ++ postSleepList cfg,
        now + preTime cfg + d + postTime cfg⟩ := by
  have hcond := precheck_false cfg hpre
  have hstamp : (stampResult cfg r attempt
      (now + preTime cfg + d)).success = true := hr
  cases remaining <;>
    simp only [ewhAux, hcond, Bool.false_eq_true, if_false, hba, hstamp,
      if_true]

lemma ewhAux_final_resfail (cfg : ActionCfg) (beh : Nat → ExecOutcome)
    (hpre : cfg.validate_before = true → cfg.page_active = true)
    (attempt : Nat) (now : ℚ) (sleeps : List SleepEv)
    (r : MActionResult) (d : ℚ) (hba : beh attempt = ExecOutcome.res r d)
    (hr : r.success = false) :
    ewhAux cfg beh 0 attempt now sleeps =
      ⟨{ stampResult cfg r attempt (now + preTime cfg + d) with
          execution_time := some (now + preTime cfg + d + postTime cfg) },
        attempt + 1, sleeps ++ preSleepList cfg ++ postSleepList cfg,
        now + preTime cfg + d + postTime cfg⟩ := by
  have hcond := precheck_false cfg hpre
  have hstamp : (stampResult cfg r attempt
      (now + preTime cfg + d)).success = false := hr
  simp only [ewhAux, hcond, Bool.false_eq_true, if_false, hba, hstamp]

lemma ewhAux_final_timeout (cfg : ActionCfg) (beh : Nat → ExecOutcome)
    (hpre : cfg.validate_before = true → cfg.page_active = true)
    (attempt : Nat) (now : ℚ) (sleeps : List SleepEv)
    (hba : beh attempt = ExecOutcome.timeoutHit) :
    ewhAux cfg beh 0 attempt now sleeps =
      ⟨{ timeoutResult cfg.timeout (some cfg.action_type) with
          execution_time := some (now + preTime cfg + cfg.timeout) },
        attempt + 1, sleeps ++ preSleepList cfg,
        now + preTime cfg + cfg.timeout⟩ := by
  have hcond := precheck_false cfg hpre
  simp only [ewhAux, hcond, Bool.false_eq_true, if_false, hba]

lemma ewhAux_final_raised (cfg : ActionCfg) (beh : Nat → ExecOutcome)
    (hpre : cfg.validate_before = true → cfg.page_active = true)
    (attempt : Nat) (now : ℚ) (sleeps : List SleepEv) (m : String)
    (d : ℚ) (hba : beh attempt = ExecOutcome.raised m d) :
    ewhAux cfg beh 0 attempt now sleeps =
      ⟨{ synthFail cfg m with
          execution_time := some (now + preTime cfg + d) },
        attempt + 1, sleeps ++ preSleepList cfg,
        now + preTime cfg + d⟩ := by
  have hcond := precheck_false cfg hpre
  simp only [ewhAux, hcond, Bool.false_eq_true, if_false, hba]

lemma backoffsOf_append (a b : List SleepEv) :
    backoffsOf (a ++ b) = backoffsOf a ++ backoffsOf b := by
  simp [backoffsOf]

lemma backoffsOf_pre (cfg : ActionCfg) :
    backoffsOf (preSleepList cfg) = [] := by
  unfold preSleepList
  split <;> simp [backoffsOf]

lemma backoffsOf_post (cfg : ActionCfg) :
    backoffsOf (postSleepList cfg) = [] := by
  unfold postSleepList
  split <;> simp [backoffsOf]

lemma backoffsOf_attemptSleeps (cfg : ActionCfg) (beh : Nat → ExecOutcome)
    (i : Nat) : backoffsOf (attemptSleeps cfg beh i) = [] := by
  unfold attemptSleeps
  cases hb : beh i <;> dsimp only
  case res =>
    rw [backoffsOf_append, backoffsOf_pre, backoffsOf_post]
    rfl
  case timeoutHit => rw [List.append_nil, backoffsOf_pre]
  case raised => rw [List.append_nil, backoffsOf_pre]

lemma backoffsOf_traceSeg (cfg : ActionCfg) (beh : Nat → ExecOutcome) :
    ∀ (n attempt : Nat),
      backoffsOf (traceSeg cfg beh attempt n) =
        (List.range' attempt n).map calculate_retry_delay := by
  intro n
  induction n with
  | zero => intro a; simp [traceSeg_zero, backoffsOf]
  | succ n ih =>
      intro a
      rw [traceSeg_succ, backoffsOf_append, backoffsOf_append,
        backoffsOf_attemptSleeps, ih (a + 1), List.range'_succ]
      simp [backoffsOf]

/-- Claim C2: for an action whose `execute` never returns success and
`retry_count = N ≤ 10`, `execute_with_hooks` performs exactly `N + 1`
attempts, the backoff slept between attempt `i` and attempt `i + 1` is
`min(0.5 * 2 ^ i, 8.0)` seconds for `i = 0 .. N - 1` (and there are no
other backoff sleeps), and when every attempt raised, the terminal
result is a failure whose error message states the total attempt count
`N + 1` (together with the last exception's message). -/
theorem c2_retry_attempts_backoff (cfg : ActionCfg)
    (beh : Nat → ExecOutcome) (_hN : cfg.retry_count ≤ 10)
    (hpre : cfg.validate_before = true → cfg.page_active = true)
    (hfail : ∀ i, attemptNotSuccess (beh i)) :
    (execute_with_hooks cfg beh).attempts = cfg.retry_count + 1 ∧
    backoffsOf (execute_with_hooks cfg beh).sleeps =
      (List.range cfg.retry_count).map calculate_retry_delay ∧
    (∀ (msgs : Nat → String) (durs : Nat → ℚ),
      (∀ i, beh i = ExecOutcome.raised (msgs i) (durs i)) →
      (execute_with_hooks cfg beh).result.success = false ∧
      (execute_with_hooks cfg beh).result.status = MStatus.failure ∧
      (execute_with_hooks cfg beh).result.error =
        some (attemptsFailMsg (cfg.retry_count + 1)
          (msgs cfg.retry_count))) := by
  have hstep := ewhAux_step cfg beh hpre cfg.retry_count cfg.retry_count
    0 0 [] le_rfl (fun i _ _ => hfail i)
  simp only [Nat.sub_self, Nat.zero_add, zero_add, List.nil_append]
    at hstep
  unfold execute_with_hooks
  rw [hstep]
  cases hbN : beh cfg.retry_count with
  | res r d =>
      have hrf : r.success = false := hfail cfg.retry_count r d hbN
      rw [ewhAux_final_resfail cfg beh hpre cfg.retry_count _ _ r d hbN
        hrf]
      refine ⟨rfl, ?_, ?_⟩
      · rw [backoffsOf_append, backoffsOf_append, backoffsOf_traceSeg,
          backoffsOf_pre, backoffsOf_post, List.range_eq_range']
        simp
      · intro msgs durs hr
        rw [hr cfg.retry_count] at hbN
        exact absurd hbN (by simp)
  | timeoutHit =>
      rw [ewhAux_final_timeout cfg beh hpre cfg.retry_count _ _ hbN]
      refine ⟨rfl, ?_, ?_⟩
      · rw [backoffsOf_append, backoffsOf_traceSeg, backoffsOf_pre,
          List.range_eq_range']
        simp
      · intro msgs durs hr
        rw [hr cfg.retry_count] at hbN
        exact absurd hbN (by simp)
  | raised m d =>
      rw [ewhAux_final_raised cfg beh hpre cfg.retry_count _ _ m d hbN]
      refine ⟨rfl, ?_, ?_⟩
      · rw [backoffsOf_append, backoffsOf_traceSeg, backoffsOf_pre,
          List.range_eq_range']
        simp
      · intro msgs durs hr
        have hm : m = msgs cfg.retry_count := by
          rw [hr cfg.retry_count] at hbN
          exact (ExecOutcome.raised.injEq _ _ _ _).mp hbN.symm |>.1
        subst hm
        exact ⟨rfl, rfl, rfl⟩

/-- Witness for C2 at a concrete input: two retries, every attempt
raising. -/
theorem c2_retry_attempts_backoff_witness :
    (execute_with_hooks
      { action_type := "click", timeout := 30, retry_count := 2,
        wait_before := 0, wait_after := 0, validate_before := true,
        page_active := true }
      (fun _ => ExecOutcome.raised "boom" 1)).attempts = 2 + 1 ∧
    backoffsOf (execute_with_hooks
      { action_type := "click", timeout := 30, retry_count := 2,
        wait_before := 0, wait_after := 0, validate_before := true,
        page_active := true }
      (fun _ => ExecOutcome.raised "boom" 1)).sleeps =
      (List.range 2).map calculate_retry_delay ∧
    (execute_with_hooks
      { action_type := "click", timeout := 30, retry_count := 2,
        wait_before := 0, wait_after := 0, validate_before := true,
        page_active := true }
      (fun _ => ExecOutcome.raised "boom" 1)).result.error =
      some (attemptsFailMsg 3 "boom") := by
  have h := c2_retry_attempts_backoff
    { action_type := "click", timeout := 30, retry_count := 2,
      wait_before := 0, wait_after := 0, validate_before := true,
      page_active := true }
    (fun _ => ExecOutcome.raised "boom" 1) (by decide) (fun _ => rfl)
    (fun i r d h => by cases h)
  exact ⟨h.1, h.2.1, (h.2.2 (fun _ => "boom") (fun _ => 1)
    (fun i => rfl)).2.2⟩

/-- Claim C3: when `execute` first returns a success result at attempt
index `k ≤ retry_count` (all earlier attempts failed, timed out or
raised), `execute_with_hooks` returns that result immediately with
`retry_count` stamped to `k` and `execution_time` stamped to the model
time elapsed since the overall call began; it performs exactly `k + 1`
attempts and sleeps exactly the `k` backoffs of the earlier attempts —
none after the success, even though retries remain. -/
theorem c3_first_success_wins (cfg : ActionCfg) (beh : Nat → ExecOutcome)
    (hpre : cfg.validate_before = true → cfg.page_active = true)
    (k : Nat) (hk : k ≤ cfg.retry_count) (r : MActionResult) (d : ℚ)
    (hbk : beh k = ExecOutcome.res r d) (hr : r.success = true)
    (hprev : ∀ i, i < k → attemptNotSuccess (beh i)) :
    (execute_with_hooks cfg beh).result =
      stampResult cfg r k (elapsedSeg cfg beh 0 k + preTime cfg + d) ∧
    (execute_with_hooks cfg beh).attempts = k + 1 ∧
    backoffsOf (execute_with_hooks cfg beh).sleeps =
      (List.range k).map calculate_retry_delay := by
  have hstep := ewhAux_step cfg beh hpre k cfg.retry_count 0 0 [] hk
    (fun i _ h2 => hprev i (by omega))
  simp only [Nat.zero_add, zero_add, List.nil_append] at hstep
  unfold execute_with_hooks
  rw [hstep, ewhAux_success cfg beh hpre _ k _ _ r d hbk hr]
  refine ⟨rfl, rfl, ?_⟩
  rw [backoffsOf_append, backoffsOf_append, backoffsOf_traceSeg,
    backoffsOf_pre, backoffsOf_post, List.range_eq_range']
  simp

/-- Witness for C3 at a concrete input: failure at attempt 0, success at
attempt 1, with one retry left unused. -/
theorem c3_first_success_wins_witness :
    (execute_with_hooks
      { action_type := "fill", timeout := 30, retry_count := 2,
        wait_before := 0, wait_after := 0, validate_before := true,
        page_active := true }
      (fun i => if i = 0 then ExecOutcome.raised "flaky" 1
        else ExecOutcome.res (successResult none none []) 2)).attempts =
      1 + 1 ∧
    (execute_with_hooks
      { action_type := "fill", timeout := 30, retry_count := 2,
        wait_before := 0, wait_after := 0, validate_before := true,
        page_active := true }
      (fun i => if i = 0 then ExecOutcome.raised "flaky" 1
        else ExecOutcome.res (successResult none none []) 2)).result.retry_count =
      1 := by
  have h := c3_first_success_wins
    { action_type := "fill", timeout := 30, retry_count := 2,
      wait_before := 0, wait_after := 0, validate_before := true,
      page_active := true }
    (fun i => if i = 0 then ExecOutcome.raised "flaky" 1
      else ExecOutcome.res (successResult none none []) 2)
    (fun _ => rfl) 1 (by decide) (successResult none none []) 2 rfl rfl
    (fun i hi r d heq => by
      interval_cases i
      cases heq)
  exact ⟨h.2.1, by rw [h.1]; rfl⟩

/-- Claim C6: when every earlier attempt was a non-success and `execute`
exceeds the configured timeout on the final attempt, `execute_with_hooks`
returns (it cannot raise — it is a total function of the attempt
outcomes) a result with status `TIMEOUT` and `success = false`, whose
error message is exactly the timeout message naming the configured
timeout value, and whose `execution_time` is the model time elapsed
since the start of the overall call. -/
theorem c6_timeout_terminal (cfg : ActionCfg) (beh : Nat → ExecOutcome)
    (hpre : cfg.validate_before = true → cfg.page_active = true)
    (hprev : ∀ i, i < cfg.retry_count → attemptNotSuccess (beh i))
    (hbN : beh cfg.retry_count = ExecOutcome.timeoutHit) :
    (execute_with_hooks cfg beh).result.status = MStatus.timeout ∧
    (execute_with_hooks cfg beh).result.success = false ∧
    (execute_with_hooks cfg beh).result.error =
      some (timeoutMsg cfg.timeout) ∧
    (execute_with_hooks cfg beh).result.execution_time =
      some (elapsedSeg cfg beh 0 cfg.retry_count + preTime cfg +
        cfg.timeout) ∧
    (execute_with_hooks cfg beh).attempts = cfg.retry_count + 1 := by
  have hstep := ewhAux_step cfg beh hpre cfg.retry_count cfg.retry_count
    0 0 [] le_rfl (fun i _ h2 => hprev i (by omega))
  simp only [Nat.sub_self, Nat.zero_add, zero_add, List.nil_append]
    at hstep
  unfold execute_with_hooks
  rw [hstep, ewhAux_final_timeout cfg beh hpre cfg.retry_count _ _ hbN]
  exact ⟨rfl, rfl, rfl, rfl, rfl⟩

/-- Witness for C6 at a concrete input: no retries, a single timing-out
attempt. -/
theorem c6_timeout_terminal_witness :
    (execute_with_hooks
      { action_type := "wait", timeout := 1, retry_count := 0,
        wait_before := 0, wait_after := 0, validate_before := true,
        page_active := true }
      (fun _ => ExecOutcome.timeoutHit)).result.status =
      MStatus.timeout ∧
    (execute_with_hooks
      { action_type := "wait", timeout := 1, retry_count := 0,
        wait_before := 0, wait_after := 0, validate_before := true,
        page_active := true }
      (fun _ => ExecOutcome.timeoutHit)).result.error =
      some (timeoutMsg 1) := by
  have h := c6_timeout_terminal
    { action_type := "wait", timeout := 1, retry_count := 0,
      wait_before := 0, wait_after := 0, validate_before := true,
      page_active := true }
    (fun _ => ExecOutcome.timeoutHit) (fun _ => rfl)
    (fun i _ r d h => by cases h) rfl
  exact ⟨h.1, h.2.2.1⟩

lemma beforeCount_append (a b : List SleepEv) :
    beforeCount (a ++ b) = beforeCount a + beforeCount b := by
  simp [beforeCount, List.countP_append]

lemma afterCount_append (a b : List SleepEv) :
    afterCount (a ++ b) = afterCount a + afterCount b := by
  simp [afterCount, List.countP_append]

lemma beforeCount_pre_zero (cfg : ActionCfg)
    (hv : cfg.validate_before = false) :
    beforeCount (preSleepList cfg) = 0 := by
  simp [preSleepList, hv, beforeCount]

lemma beforeCount_pre_one (cfg : ActionCfg)
    (hv : cfg.validate_before = true) (hwb : cfg.wait_before > 0) :
    beforeCount (preSleepList cfg) = 1 := by
  have hc : (cfg.validate_before && decide (cfg.wait_before > 0)) =
      true := by
    rw [hv, decide_eq_true hwb]
    rfl
  simp [preSleepList, hc, beforeCount]

lemma beforeCount_post (cfg : ActionCfg) :
    beforeCount (postSleepList cfg) = 0 := by
  unfold postSleepList
  split <;> simp [beforeCount]

lemma afterCount_pre (cfg : ActionCfg) :
    afterCount (preSleepList cfg) = 0 := by
  unfold preSleepList
  split <;> simp [afterCount]

lemma afterCount_post_one (cfg : ActionCfg) (hwa : cfg.wait_after > 0) :
    afterCount (postSleepList cfg) = 1 := by
  have hc : decide (cfg.wait_after > 0) = true := decide_eq_true hwa
  simp [postSleepList, hc, afterCount]

lemma beforeCount_backoff (q : ℚ) :
    beforeCount [SleepEv.backoff q] = 0 := rfl

lemma afterCount_backoff (q : ℚ) :
    afterCount [SleepEv.backoff q] = 0 := rfl

lemma ewhAux_no_beforeSleep (cfg : ActionCfg) (beh : Nat → ExecOutcome)
    (hv : cfg.validate_before = false) :
    ∀ (remaining attempt : Nat) (now : ℚ) (sleeps : List SleepEv),
      beforeCount (ewhAux cfg beh remaining attempt now sleeps).sleeps =
        beforeCount sleeps := by
  have hcond : (cfg.validate_before && !cfg.page_active) = false := by
    rw [hv]
    rfl
  have hpre0 : preSleepList cfg = [] := by
    simp [preSleepList, hv]
  intro remaining
  induction remaining with
  | zero =>
      intro attempt now sleeps
      simp only [ewhAux, hcond, Bool.false_eq_true, if_false]
      cases hba : beh attempt with
      | res r d =>
          dsimp only
          split <;>
            simp [beforeCount_append, hpre0, beforeCount_post]
      | timeoutHit =>
          dsimp only
          simp [beforeCount_append, hpre0]
      | raised m d =>
          dsimp only
          simp [beforeCount_append, hpre0]
  | succ rem ih =>
      intro attempt now sleeps
      simp only [ewhAux, hcond, Bool.false_eq_true, if_false]
      cases hba : beh attempt with
      | res r d =>
          dsimp only
          split
          · simp [beforeCount_append, hpre0, beforeCount_post]
          · rw [ih]
            simp [beforeCount_append, hpre0, beforeCount_post,
              beforeCount_backoff]
      | timeoutHit =>
          dsimp only
          rw [ih]
          simp [beforeCount_append, hpre0, beforeCount_backoff]
      | raised m d =>
          dsimp only
          rw [ih]
          simp [beforeCount_append, hpre0, beforeCount_backoff]

/-- Whether an attempt outcome is a returned result (as opposed to a
timeout or an exception) — exactly the attempts on which `post_execute`
runs. -/
def isResOutcome (o : ExecOutcome) : Bool :=
  match o with
  | ExecOutcome.res _ _ => true
  | _ => false

lemma ewhAux_beforeCount_per_attempt (cfg : ActionCfg)
    (beh : Nat → ExecOutcome) (hv : cfg.validate_before = true)
    (ha : cfg.page_active = true) (hwb : cfg.wait_before > 0) :
    ∀ (remaining attempt : Nat) (now : ℚ) (sleeps : List SleepEv),
      attempt < (ewhAux cfg beh remaining attempt now sleeps).attempts ∧
      beforeCount (ewhAux cfg beh remaining attempt now sleeps).sleeps =
        beforeCount sleeps +
          ((ewhAux cfg beh remaining attempt now sleeps).attempts -
            attempt) := by
  have hcond : (cfg.validate_before && !cfg.page_active) = false := by
    rw [hv, ha]
    rfl
  have hb1 := beforeCount_pre_one cfg hv hwb
  intro remaining
  induction remaining with
  | zero =>
      intro attempt now sleeps
      simp only [ewhAux, hcond, Bool.false_eq_true, if_false]
      cases hba : beh attempt with
      | res r d =>
          dsimp only
          split <;> simp [beforeCount_append, hb1, beforeCount_post]
      | timeoutHit =>
          dsimp only
          simp [beforeCount_append, hb1]
      | raised m d =>
          dsimp only
          simp [beforeCount_append, hb1]
  | succ rem ih =>
      intro attempt now sleeps
      simp only [ewhAux, hcond, Bool.false_eq_true, if_false]
      cases hba : beh attempt with
      | res r d =>
          dsimp only
          split
          · simp [beforeCount_append, hb1, beforeCount_post]
          · obtain ⟨h1, h2⟩ := ih (attempt + 1)
              (now + preTime cfg + d + postTime cfg +
                calculate_retry_delay attempt)
              (sleeps ++ preSleepList cfg ++ postSleepList cfg ++
                [SleepEv.backoff (calculate_retry_delay attempt)])
            refine ⟨by omega, ?_⟩
            rw [h2, beforeCount_append, beforeCount_append,
              beforeCount_append, hb1, beforeCount_post,
              beforeCount_backoff]
            omega
      | timeoutHit =>
          dsimp only
          obtain ⟨h1, h2⟩ := ih (attempt + 1)
            (now + preTime cfg + cfg.timeout +
              calculate_retry_delay attempt)
            (sleeps ++ preSleepList cfg ++
              [SleepEv.backoff (calculate_retry_delay attempt)])
          refine ⟨by omega, ?_⟩
          rw [h2, beforeCount_append, beforeCount_append, hb1,
            beforeCount_backoff]
          omega
      | raised m d =>
          dsimp only
          obtain ⟨h1, h2⟩ := ih (attempt + 1)
            (now + preTime cfg + d + calculate_retry_delay attempt)
            (sleeps ++ preSleepList cfg ++
              [SleepEv.backoff (calculate_retry_delay attempt)])
          refine ⟨by omega, ?_⟩
          rw [h2, beforeCount_append, beforeCount_append, hb1,
            beforeCount_backoff]
          omega

lemma ewhAux_afterCount_res (cfg : ActionCfg) (beh : Nat → ExecOutcome)
    (hpre : cfg.validate_before = true → cfg.page_active = true)
    (hwa : cfg.wait_after > 0) :
    ∀ (remaining attempt : Nat) (now : ℚ) (sleeps : List SleepEv),
      attempt < (ewhAux cfg beh remaining attempt now sleeps).attempts ∧
      afterCount (ewhAux cfg beh remaining attempt now sleeps).sleeps =
        afterCount sleeps +
          ((List.range' attempt
            ((ewhAux cfg beh remaining attempt now sleeps).attempts -
              attempt)).map beh).countP isResOutcome := by
  have hcond := precheck_false cfg hpre
  have ha1 := afterCount_post_one cfg hwa
  intro remaining
  induction remaining with
  | zero =>
      intro attempt now sleeps
      simp only [ewhAux, hcond, Bool.false_eq_true, if_false]
      cases hba : beh attempt with
      | res r d =>
          dsimp only
          split <;>
            simp [afterCount_append, afterCount_pre, ha1,
              List.range'_one, hba, isResOutcome, List.countP_cons]
      | timeoutHit =>
          dsimp only
          simp [afterCount_append, afterCount_pre, List.range'_one, hba,
            isResOutcome, List.countP_cons]
      | raised m d =>
          dsimp only
          simp [afterCount_append, afterCount_pre, List.range'_one, hba,
            isResOutcome, List.countP_cons]
  | succ rem ih =>
      intro attempt now sleeps
      simp only [ewhAux, hcond, Bool.false_eq_true, if_false]
      cases hba : beh attempt with
      | res r d =>
          dsimp only
          split
          · simp [afterCount_append, afterCount_pre, ha1,
              List.range'_one, hba, isResOutcome, List.countP_cons]
          · obtain ⟨h1, h2⟩ := ih (attempt + 1)
              (now + preTime cfg + d + postTime cfg +
                calculate_retry_delay attempt)
              (sleeps ++ preSleepList cfg ++ postSleepList cfg ++
                [SleepEv.backoff (calculate_retry_delay attempt)])
            refine ⟨by omega, ?_⟩
            rw [h2, afterCount_append, afterCount_append,
              afterCount_append, afterCount_pre, ha1, afterCount_backoff]
            have he : (ewhAux cfg beh rem (attempt + 1)
                (now + preTime cfg + d + postTime cfg +
                  calculate_retry_delay attempt)
                (sleeps ++ preSleepList cfg ++ postSleepList cfg ++
                  [SleepEv.backoff
                    (calculate_retry_delay attempt)])).attempts -
                attempt =
                ((ewhAux cfg beh rem (attempt + 1)
                  (now + preTime cfg + d + postTime cfg +
                    calculate_retry_delay attempt)
                  (sleeps ++ preSleepList cfg ++ postSleepList cfg ++
                    [SleepEv.backoff
                      (calculate_retry_delay attempt)])).attempts -
                  (attempt + 1)) + 1 := by omega
            rw [he, List.range'_succ, List.map_cons, List.countP_cons,
              hba,
              show (if isResOutcome (ExecOutcome.res r d) = true then 1
                else 0) = 1 from rfl]
            omega
      | timeoutHit =>
          dsimp only
          obtain ⟨h1, h2⟩ := ih (attempt + 1)
            (now + preTime cfg + cfg.timeout +
              calculate_retry_delay attempt)
            (sleeps ++ preSleepList cfg ++
              [SleepEv.backoff (calculate_retry_delay attempt)])
          refine ⟨by omega, ?_⟩
          rw [h2, afterCount_append, afterCount_append, afterCount_pre,
            afterCount_backoff]
          have he : (ewhAux cfg beh rem (attempt + 1)
              (now + preTime cfg + cfg.timeout +
                calculate_retry_delay attempt)
              (sleeps ++ preSleepList cfg ++
                [SleepEv.backoff
                  (calculate_retry_delay attempt)])).attempts -
              attempt =
              ((ewhAux cfg beh rem (attempt + 1)
                (now + preTime cfg + cfg.timeout +
                  calculate_retry_delay attempt)
                (sleeps ++ preSleepList cfg ++
                  [SleepEv.backoff
                    (calculate_retry_delay attempt)])).attempts -
                (attempt + 1)) + 1 := by omega
          rw [he, List.range'_succ, List.map_cons, List.countP_cons, hba,
            show (if isResOutcome ExecOutcome.timeoutHit = true then 1
              else 0) = 0 from rfl]
          omega
      | raised m d =>
          dsimp only
          obtain ⟨h1, h2⟩ := ih (attempt + 1)
            (now + preTime cfg + d + calculate_retry_delay attempt)
            (sleeps ++ preSleepList cfg ++
              [SleepEv.backoff (calculate_retry_delay attempt)])
          refine ⟨by omega, ?_⟩
          rw [h2, afterCount_append, afterCount_append, afterCount_pre,
            afterCount_backoff]
          have he : (ewhAux cfg beh rem (attempt + 1)
              (now + preTime cfg + d + calculate_retry_delay attempt)
              (sleeps ++ preSleepList cfg ++
                [SleepEv.backoff
                  (calculate_retry_delay attempt)])).attempts -
              attempt =
              ((ewhAux cfg beh rem (attempt + 1)
                (now + preTime cfg + d + calculate_retry_delay attempt)
                (sleeps ++ preSleepList cfg ++
                  [SleepEv.backoff
                    (calculate_retry_delay attempt)])).attempts -
                (attempt + 1)) + 1 := by omega
          rw [he, List.range'_succ, List.map_cons, List.countP_cons, hba,
            show (if isResOutcome (ExecOutcome.raised m d) = true then 1
              else 0) = 0 from rfl]
          omega

lemma ewhAux_inactive_counts (cfg : ActionCfg) (beh : Nat → ExecOutcome)
    (hv : cfg.validate_before = true) (hi : cfg.page_active = false) :
    ∀ (remaining attempt : Nat) (now : ℚ) (sleeps : List SleepEv),
      beforeCount (ewhAux cfg beh remaining attempt now sleeps).sleeps =
        beforeCount sleeps ∧
      afterCount (ewhAux cfg beh remaining attempt now sleeps).sleeps =
        afterCount sleeps := by
  have hcond : (cfg.validate_before && !cfg.page_active) = true := by
    rw [hv, hi]
    rfl
  intro remaining
  induction remaining with
  | zero =>
      intro attempt now sleeps
      simp [ewhAux, hcond]
  | succ rem ih =>
      intro attempt now sleeps
      simp only [ewhAux, hcond, if_true]
      obtain ⟨h1, h2⟩ := ih (attempt + 1)
        (now + calculate_retry_delay attempt)
        (sleeps ++ [SleepEv.backoff (calculate_retry_delay attempt)])
      rw [h1, h2, beforeCount_append, afterCount_append,
        beforeCount_backoff, afterCount_backoff]
      omega

/-- Counterexample to claim C7, in both of its halves.  First, an action
with `wait_before = 1` but `validate_before = false` performs its
attempt with NO `wait_before` sleep at all — the sleep lives inside
`pre_execute`, which is only called when `validate_before` is set, so
the claimed unconditional sleep does not happen.  Second, an action with
`wait_after = 1` whose attempt times out performs NO `wait_after` sleep
either — `post_execute` is only reached when `execute` returned a
result, so "slept after execution on every attempt" fails on timeout
(and exception) attempts. -/
theorem c7_cex :
    ({ action_type := "custom", timeout := 30, retry_count := 0,
       wait_before := 1, wait_after := 0, validate_before := false,
       page_active := true } : ActionCfg).wait_before > 0 ∧
    (execute_with_hooks
      { action_type := "custom", timeout := 30, retry_count := 0,
        wait_before := 1, wait_after := 0, validate_before := false,
        page_active := true }
      (fun _ => ExecOutcome.res (successResult none none []) 0)).attempts =
      1 ∧
    beforeCount (execute_with_hooks
      { action_type := "custom", timeout := 30, retry_count := 0,
        wait_before := 1, wait_after := 0, validate_before := false,
        page_active := true }
      (fun _ => ExecOutcome.res (successResult none none []) 0)).sleeps =
      0 ∧
    ({ action_type := "wait", timeout := 1, retry_count := 0,
       wait_before := 0, wait_after := 1, validate_before := true,
       page_active := true } : ActionCfg).wait_after > 0 ∧
    (execute_with_hooks
      { action_type := "wait", timeout := 1, retry_count := 0,
        wait_before := 0, wait_after := 1, validate_before := true,
        page_active := true }
      (fun _ => ExecOutcome.timeoutHit)).attempts = 1 ∧
    afterCount (execute_with_hooks
      { action_type := "wait", timeout := 1, retry_count := 0,
        wait_before := 0, wait_after := 1, validate_before := true,
        page_active := true }
      (fun _ => ExecOutcome.timeoutHit)).sleeps = 0 := by
  refine ⟨by norm_num, rfl, rfl, by norm_num, rfl, rfl⟩

/-- Claim C7 as amended.  The `wait_before` sleep happens inside
`pre_execute`: with `validate_before = false` it is never performed;
with `validate_before = true` on an active page and `wait_before > 0`
it is performed exactly once per attempt, whatever the attempts do and
whatever `wait_after` is.  The `wait_after` sleep of `post_execute` is
performed, when `wait_after > 0`, exactly once per attempt whose
`execute` returned a result — never on a timeout or exception attempt —
regardless of `validate_before`.  On an inactive page with validation
on, `pre_execute` raises before sleeping and `execute` never runs, so
neither sleep happens. -/
theorem c7_amended_wait_sleeps (cfg : ActionCfg)
    (beh : Nat → ExecOutcome) :
    (cfg.validate_before = false →
      beforeCount (execute_with_hooks cfg beh).sleeps = 0) ∧
    (cfg.validate_before = true → cfg.page_active = true →
      cfg.wait_before > 0 →
      beforeCount (execute_with_hooks cfg beh).sleeps =
        (execute_with_hooks cfg beh).attempts) ∧
    ((cfg.validate_before = true → cfg.page_active = true) →
      cfg.wait_after > 0 →
      afterCount (execute_with_hooks cfg beh).sleeps =
        ((List.range (execute_with_hooks cfg beh).attempts).map
          beh).countP isResOutcome) ∧
    (cfg.validate_before = true → cfg.page_active = false →
      beforeCount (execute_with_hooks cfg beh).sleeps = 0 ∧
      afterCount (execute_with_hooks cfg beh).sleeps = 0) := by
  refine ⟨?_, ?_, ?_, ?_⟩
  · intro hv
    have h := ewhAux_no_beforeSleep cfg beh hv cfg.retry_count 0 0 []
    unfold execute_with_hooks
    rw [h]
    rfl
  · intro hv ha hwb
    obtain ⟨h1, h2⟩ := ewhAux_beforeCount_per_attempt cfg beh hv ha hwb
      cfg.retry_count 0 0 []
    unfold execute_with_hooks
    rw [h2]
    show 0 + _ = _
    omega
  · intro hpre hwa
    obtain ⟨h1, h2⟩ := ewhAux_afterCount_res cfg beh hpre hwa
      cfg.retry_count 0 0 []
    unfold execute_with_hooks
    rw [h2, List.range_eq_range']
    simp only [Nat.sub_zero]
    show 0 + _ = _
    omega
  · intro hv hi
    obtain ⟨h1, h2⟩ := ewhAux_inactive_counts cfg beh hv hi
      cfg.retry_count 0 0 []
    unfold execute_with_hooks
    exact ⟨by rw [h1]; rfl, by rw [h2]; rfl⟩

/-- Witness for C7 (amended) at a concrete input: with
`validate_before = true` on an active page, a run whose first attempt
times out and whose second returns a failure result sleeps
`wait_before` once per attempt, and `wait_after` exactly on the
result-returning attempts. -/
theorem c7_amended_wait_sleeps_witness :
    beforeCount (execute_with_hooks
      { action_type := "hover", timeout := 30, retry_count := 1,
        wait_before := 2, wait_after := 3, validate_before := true,
        page_active := true }
      (fun i => if i = 0 then ExecOutcome.timeoutHit
        else ExecOutcome.res
          (failureResult "nope" (some "hover")) 1)).sleeps =
      (execute_with_hooks
      { action_type := "hover", timeout := 30, retry_count := 1,
        wait_before := 2, wait_after := 3, validate_before := true,
        page_active := true }
      (fun i => if i = 0 then ExecOutcome.timeoutHit
        else ExecOutcome.res
          (failureResult "nope" (some "hover")) 1)).attempts ∧
    afterCount (execute_with_hooks
      { action_type := "hover", timeout := 30, retry_count := 1,
        wait_before := 2, wait_after := 3, validate_before := true,
        page_active := true }
      (fun i => if i = 0 then ExecOutcome.timeoutHit
        else ExecOutcome.res
          (failureResult "nope" (some "hover")) 1)).sleeps =
      ((List.range (execute_with_hooks
        { action_type := "hover", timeout := 30, retry_count := 1,
          wait_before := 2, wait_after := 3, validate_before := true,
          page_active := true }
        (fun i => if i = 0 then ExecOutcome.timeoutHit
          else ExecOutcome.res
            (failureResult "nope" (some "hover")) 1)).attempts).map
        (fun i => if i = 0 then ExecOutcome.timeoutHit
          else ExecOutcome.res
            (failureResult "nope" (some "hover")) 1)).countP
        isResOutcome := by
  have h := c7_amended_wait_sleeps
    { action_type := "hover", timeout := 30, retry_count := 1,
      wait_before := 2, wait_after := 3, validate_before := true,
      page_active := true }
    (fun i => if i = 0 then ExecOutcome.timeoutHit
      else ExecOutcome.res (failureResult "nope" (some "hover")) 1)
  exact ⟨h.2.1 rfl rfl (by norm_num),
    h.2.2.1 (fun _ => rfl) (by norm_num)⟩

end Browserve
